import Mathlib

/-! Configuration parsing of shrpx (`examples/shrpx_config.cc`).

A shallow embedding of the configuration subsystem of the shrpx reverse proxy:
the `host,port` splitter, the owned-string setter, the option dispatcher
`parse_config`, the record it mutates and the file loader `load_config`.

Conventions of the embedding.

* A C `char` is a Lean `Char`; the memory a `const char *` points at is a
  `List Char`.  The C string it denotes ends at the first NUL character, or at
  the end of the list (the list end stands for the terminator).  Every function
  that reads a C string stops there, as the C function does.
* Machine integers are `Nat`/`Int` with the wrap-around written out
  (`% 2 ^ 64`, `% 2 ^ 32`); `long` and `unsigned long` have 64 bits (LP64),
  `int` has 32.
* A function that writes through pointers takes the old contents and returns the
  new ones.  What goes to `std::cerr` is returned as a list of `Diag`.
-/

namespace shrpx

/-! ## C strings -/

/-- The NUL character that terminates a C string. -/
def NUL : Char := Char.ofNat 0

/-- The contents of the C string stored at `s`: the characters before the first
NUL (all of `s` when it holds none). -/
def cstr : List Char → List Char
  | [] => []
  | c :: cs => if c = NUL then [] else c :: cstr cs

/-- The C function `strlen`. -/
def strlen (s : List Char) : Nat := (cstr s).length

/-- The call `strchr(s, c)`: the offset of the first `c` in the C string at `s`, `none`
for the null pointer.  The terminator itself is found when `c` is NUL. -/
def strchr : List Char → Char → Option Nat
  | [], c => if c = NUL then some 0 else none
  | x :: xs, c =>
    if x = c then some 0
    else if x = NUL then none
    else (strchr xs c).map (· + 1)

/-- The call `memcpy(dst, src, n)`: the first `n` bytes of `dst` are replaced by the first
`n` bytes of `src`.  A copy that runs past the end of `dst` shows as a result
longer than `dst`. -/
def memcpy (dst src : List Char) (n : Nat) : List Char :=
  src.take n ++ dst.drop n

/-- The store `buf[i] = v`.  A store past the end of `buf` shows as a result
longer than `buf`. -/
def store (buf : List Char) (i : Nat) (v : Char) : List Char :=
  buf.take i ++ v :: buf.drop (i + 1)

/-! ## `strtoul` and `strtol` of the C library, base 10 -/

/-- The constant `ULONG_MAX` for a 64-bit `unsigned long`. -/
def ULONG_MAX : Nat := 2 ^ 64 - 1

/-- The constant `LONG_MAX` for a 64-bit `long`. -/
def LONG_MAX : Nat := 2 ^ 63 - 1

/-- The C function `isspace` in the C locale: space, `\t`, `\n`, `\v`, `\f`, `\r`. -/
def isspace (c : Char) : Bool :=
  c.toNat = 32 || (9 ≤ c.toNat && c.toNat ≤ 13)

/-- The C function `isdigit`. -/
def isdigit (c : Char) : Bool :=
  48 ≤ c.toNat && c.toNat ≤ 57

/-- Skip the leading white space of a numeric string. -/
def skipSpace : List Char → List Char
  | [] => []
  | c :: cs => if isspace c then skipSpace cs else c :: cs

/-- The value of the longest run of decimal digits at the head of the string,
accumulated onto `acc` (a mathematical integer: no overflow here). -/
def digitsValue : Nat → List Char → Nat
  | acc, [] => acc
  | acc, c :: cs =>
    if isdigit c then digitsValue (acc * 10 + (c.toNat - 48)) cs else acc

/-- Whether the string starts with a decimal digit. -/
def startsWithDigit : List Char → Bool
  | [] => false
  | c :: _ => isdigit c

/-- The subject sequence of `strtol`/`strtoul` after the white space: the sign
(`true` for a minus sign) and what follows it. -/
def takeSign : List Char → Bool × List Char
  | [] => (false, [])
  | c :: cs =>
    if c = '-' then (true, cs)
    else if c = '+' then (false, cs)
    else (false, c :: cs)

/-- What a `strtoul` call leaves: the value returned and whether `errno` was
set to `ERANGE`. -/
structure ULongResult where
  val : Nat
  erange : Bool
  deriving DecidableEq, Repr

/-- The call `strtoul(s, 0, 10)`.  White space is skipped, an optional sign is read, then
the longest run of digits.  No digits: 0 is returned and `errno` is not touched.
A magnitude above `ULONG_MAX`: `ULONG_MAX` with `ERANGE`.  Otherwise the
magnitude, negated in `unsigned long` arithmetic after a minus sign. -/
def strtoul (s : List Char) : ULongResult :=
  let sg := takeSign (skipSpace s)
  if startsWithDigit sg.2 then
    let m := digitsValue 0 sg.2
    if ULONG_MAX < m then ⟨ULONG_MAX, true⟩
    else if sg.1 then ⟨(2 ^ 64 - m) % 2 ^ 64, false⟩
    else ⟨m, false⟩
  else ⟨0, false⟩

/-- What a `strtol` call leaves: the value returned and whether `errno` was set
to `ERANGE`. -/
structure LongResult where
  val : Int
  erange : Bool
  deriving DecidableEq, Repr

/-- The call `strtol(s, 0, 10)`.  As `strtoul`, with the result clamped to
`LONG_MIN`/`LONG_MAX` (and `ERANGE`) when it does not fit a `long`. -/
def strtol (s : List Char) : LongResult :=
  let sg := takeSign (skipSpace s)
  if startsWithDigit sg.2 then
    let m := digitsValue 0 sg.2
    if sg.1 then
      if LONG_MAX + 1 < m then ⟨-((LONG_MAX : Int) + 1), true⟩ else ⟨-(m : Int), false⟩
    else
      if LONG_MAX < m then ⟨(LONG_MAX : Int), true⟩ else ⟨(m : Int), false⟩
  else ⟨0, false⟩

/-! ## Diagnostics -/

/-- The lines written to `std::cerr`. -/
inductive Diag where
  /-- Line `Invalid host, port: <hostport>`. -/
  | invalidHostPort (hostport : List Char)
  /-- Line `Hostname too long: <hostport>`. -/
  | hostnameTooLong (hostport : List Char)
  /-- Line `Port is invalid: <text after the comma>`. -/
  | portInvalid (rest : List Char)
  /-- Line `Invalid severity level: <optarg>`. -/
  | invalidSeverity (optarg : List Char)
  /-- Line `-w: specify the integer in the range [0, 30], inclusive`. -/
  | windowBitsRange
  /-- Line `user: failed to get uid from <optarg>: <strerror(errno)>`, with two dashes in front. -/
  | userLookupFailed (optarg : List Char)
  /-- Line `conf is ignored`. -/
  | confIgnored
  /-- Line `Unknown option: <opt>`. -/
  | unknownOption (opt : List Char)
  /-- Line `Could not open config file <filename>`. -/
  | couldNotOpen (filename : List Char)
  /-- Line `Bad configuration format at line <linenum>`. -/
  | badFormat (linenum : Int)
  deriving DecidableEq, Repr

/-! ## `split_host_port` -/

/-- What `split_host_port` leaves: its return value, the host buffer, `*port_ptr`
and the diagnostics. -/
structure SplitResult where
  ret : Int
  host : List Char
  port : Nat
  err : List Diag
  deriving DecidableEq, Repr

/-- The call `split_host_port(host, hostlen, port_ptr, hostport)`; `host` is the memory at
the host pointer before the call and `port` the value of `*port_ptr` before it. -/
def split_host_port (host : List Char) (hostlen : Nat) (port : Nat)
    (hostport : List Char) : SplitResult :=
  match strchr hostport ',' with
  | none => ⟨-1, host, port, [Diag.invalidHostPort (cstr hostport)]⟩
  | some len =>
    if hostlen < len + 1 then
      ⟨-1, host, port, [Diag.hostnameTooLong (cstr hostport)]⟩
    else
      let host1 := store (memcpy host hostport len) len NUL
      let d := strtoul (hostport.drop (len + 1))
      if d.erange = false ∧ 1 ≤ d.val ∧ d.val ≤ 65535 then
        ⟨0, host1, d.val % 65536, []⟩
      else
        ⟨-1, host1, port, [Diag.portInvalid (cstr (hostport.drop (len + 1)))]⟩

/-! ## The configuration record -/

/-- The C structure `timeval`: seconds and microseconds. -/
structure timeval where
  tv_sec : Int
  tv_usec : Int
  deriving DecidableEq, Repr

/-- Modelled from the spec: `struct Config` is declared in `shrpx_config.h`, which
is not part of the sources at hand; its fields are the ones the constructor and
`parse_config` name.  Strings are nullable owned C strings.  Ports are 16-bit
unsigned.  Worker count, stream limit and window bits are "integer ≥ 0" in the
spec, an unsigned type of the width of `size_t`: the fields hold its values as
integers, and a store into them converts with `to_size_t`. -/
structure Config where
  verbose : Bool
  daemon : Bool
  host : Option (List Char)
  port : Nat
  private_key_file : Option (List Char)
  cert_file : Option (List Char)
  verify_client : Bool
  server_name : Option (List Char)
  downstream_host : Option (List Char)
  downstream_port : Nat
  downstream_hostport : Option (List Char)
  downstream_addrlen : Int
  spdy_upstream_read_timeout : timeval
  upstream_read_timeout : timeval
  upstream_write_timeout : timeval
  downstream_read_timeout : timeval
  downstream_write_timeout : timeval
  downstream_idle_read_timeout : timeval
  num_worker : Int
  spdy_max_concurrent_streams : Int
  spdy_proxy : Bool
  add_x_forwarded_for : Bool
  accesslog : Bool
  spdy_upstream_window_bits : Int
  pid_file : Option (List Char)
  uid : Nat
  gid : Nat
  conf_path : Option (List Char)
  deriving DecidableEq, Repr

/-- Conversion of an integer to `size_t` (64 bits): reduction modulo `2 ^ 64`. -/
def to_size_t (x : Int) : Int := x % 2 ^ 64

/-- The constructor `Config::Config()` run over storage holding `raw`: the members of the
initialiser list are set, the six timeouts keep the indeterminate contents of
the storage. -/
def Config.ctor (raw : Config) : Config :=
  { raw with
    verbose := false
    daemon := false
    host := none
    port := 0
    private_key_file := none
    cert_file := none
    verify_client := false
    server_name := none
    downstream_host := none
    downstream_port := 0
    downstream_hostport := none
    downstream_addrlen := 0
    num_worker := 0
    spdy_max_concurrent_streams := 0
    spdy_proxy := false
    add_x_forwarded_for := false
    accesslog := false
    spdy_upstream_window_bits := 0
    pid_file := none
    uid := 0
    gid := 0
    conf_path := none }

/-! ## Option names -/

def SHRPX_OPT_PRIVATE_KEY_FILE : List Char := "private-key-file".toList
def SHRPX_OPT_CERTIFICATE_FILE : List Char := "certificate-file".toList
def SHRPX_OPT_BACKEND : List Char := "backend".toList
def SHRPX_OPT_FRONTEND : List Char := "frontend".toList
def SHRPX_OPT_WORKERS : List Char := "workers".toList
def SHRPX_OPT_SPDY_MAX_CONCURRENT_STREAMS : List Char := "spdy-max-concurrent-streams".toList
def SHRPX_OPT_LOG_LEVEL : List Char := "log-level".toList
def SHRPX_OPT_DAEMON : List Char := "daemon".toList
def SHRPX_OPT_SPDY_PROXY : List Char := "spdy-proxy".toList
def SHRPX_OPT_ADD_X_FORWARDED_FOR : List Char := "add-x-forwarded-for".toList
def SHRPX_OPT_FRONTEND_SPDY_READ_TIMEOUT : List Char := "frontend-spdy-read-timeout".toList
def SHRPX_OPT_FRONTEND_READ_TIMEOUT : List Char := "frontend-read-timeout".toList
def SHRPX_OPT_FRONTEND_WRITE_TIMEOUT : List Char := "frontend-write-timeout".toList
def SHRPX_OPT_BACKEND_READ_TIMEOUT : List Char := "backend-read-timeout".toList
def SHRPX_OPT_BACKEND_WRITE_TIMEOUT : List Char := "backend-write-timeout".toList
def SHRPX_OPT_ACCESSLOG : List Char := "accesslog".toList
def SHRPX_OPT_BACKEND_KEEP_ALIVE_TIMEOUT : List Char := "backend-keep-alive-timeout".toList
def SHRPX_OPT_FRONTEND_SPDY_WINDOW_BITS : List Char := "frontend-spdy-window-bits".toList
def SHRPX_OPT_PID_FILE : List Char := "pid-file".toList
def SHRPX_OPT_USER : List Char := "user".toList

/-- The literal `"conf"` of the last recognised branch of `parse_config`. -/
def OPT_CONF : List Char := "conf".toList

/-- The literal `"yes"` the boolean options compare their value with. -/
def YES : List Char := "yes".toList

/-! ## Collaborators -/

/-- ASCII lower-casing of one character: `A`..`Z` go to `a`..`z`. -/
def lowcase (c : Char) : Char :=
  if 65 ≤ c.toNat ∧ c.toNat ≤ 90 then Char.ofNat (c.toNat + 32) else c

/-- Modelled from the spec: `util::strieq` is defined in `util.h`/`util.cc`, which
are not part of the sources at hand.  The spec has option names and the literal
`yes` compared case-insensitively: two C strings are equal when they have the
same length and agree character by character up to the case of ASCII letters. -/
def strieq : List Char → List Char → Bool
  | [], [] => true
  | [], b :: _ => b = NUL
  | a :: _, [] => a = NUL
  | a :: as, b :: bs =>
    if a = NUL ∨ b = NUL then (a = NUL ∧ b = NUL)
    else if lowcase a = lowcase b then strieq as bs
    else false

/-- The collaborators `parse_config` calls outside this file. -/
structure Env where
  /-- The return value of `Log::set_severity_level_by_name` on a C string
  (`-1`: no such level).  The severity threshold it sets belongs to the logger,
  not to the configuration record. -/
  set_severity_level_by_name : List Char → Int
  /-- The library call `getpwnam` on a C string: `none` for the null pointer,
  else `pw_uid` and `pw_gid` of the entry. -/
  getpwnam : List Char → Option (Nat × Nat)

/-- The constant `NI_MAXHOST` of `<netdb.h>`. -/
def NI_MAXHOST : Nat := 1025

/-! ## `set_config_str` and `parse_config` -/

/-- What `set_config_str` leaves: the field, and the block handed to `free`. -/
structure StrSet where
  dest : Option (List Char)
  freed : Option (List Char)
  deriving DecidableEq, Repr

/-- The call `set_config_str(destp, val)` with `dest` the value of `*destp` before the
call: a non-null `*destp` is freed, then `*destp` is a fresh copy (`strdup`) of
the C string at `val`. -/
def set_config_str (dest : Option (List Char)) (val : List Char) : StrSet :=
  match dest with
  | some old => ⟨some (cstr val), some old⟩
  | none => ⟨some (cstr val), none⟩

/-- What `parse_config` leaves: its return value, the record behind
`mod_config()` and the diagnostics. -/
structure ParseResult where
  ret : Int
  config : Config
  err : List Diag
  deriving DecidableEq, Repr

/-- The local array `char host[NI_MAXHOST]` of `parse_config` on entry.  It is
not initialised in the source; `split_host_port` writes the part that is read
afterwards (see `split_host_port_buffer_irrelevant`). -/
def hostBuffer : List Char := List.replicate NI_MAXHOST NUL

/-- The call `parse_config(opt, optarg)` on the record `c`. -/
def parse_config (env : Env) (c : Config) (opt optarg : List Char) : ParseResult :=
  if strieq opt SHRPX_OPT_BACKEND then
    let r := split_host_port hostBuffer NI_MAXHOST 0 optarg
    if r.ret = -1 then ⟨-1, c, r.err⟩
    else
      ⟨0, { c with downstream_host := (set_config_str c.downstream_host r.host).dest
                   downstream_port := r.port }, r.err⟩
  else if strieq opt SHRPX_OPT_FRONTEND then
    let r := split_host_port hostBuffer NI_MAXHOST 0 optarg
    if r.ret = -1 then ⟨-1, c, r.err⟩
    else
      ⟨0, { c with host := (set_config_str c.host r.host).dest
                   port := r.port }, r.err⟩
  else if strieq opt SHRPX_OPT_WORKERS then
    ⟨0, { c with num_worker := to_size_t (strtol optarg).val }, []⟩
  else if strieq opt SHRPX_OPT_SPDY_MAX_CONCURRENT_STREAMS then
    ⟨0, { c with spdy_max_concurrent_streams := to_size_t (strtol optarg).val }, []⟩
  else if strieq opt SHRPX_OPT_LOG_LEVEL then
    if env.set_severity_level_by_name (cstr optarg) = -1 then
      ⟨-1, c, [Diag.invalidSeverity (cstr optarg)]⟩
    else ⟨0, c, []⟩
  else if strieq opt SHRPX_OPT_DAEMON then
    ⟨0, { c with daemon := strieq optarg YES }, []⟩
  else if strieq opt SHRPX_OPT_SPDY_PROXY then
    ⟨0, { c with spdy_proxy := strieq optarg YES }, []⟩
  else if strieq opt SHRPX_OPT_ADD_X_FORWARDED_FOR then
    ⟨0, { c with add_x_forwarded_for := strieq optarg YES }, []⟩
  else if strieq opt SHRPX_OPT_FRONTEND_SPDY_READ_TIMEOUT then
    ⟨0, { c with spdy_upstream_read_timeout := ⟨(strtol optarg).val, 0⟩ }, []⟩
  else if strieq opt SHRPX_OPT_FRONTEND_READ_TIMEOUT then
    ⟨0, { c with upstream_read_timeout := ⟨(strtol optarg).val, 0⟩ }, []⟩
  else if strieq opt SHRPX_OPT_FRONTEND_WRITE_TIMEOUT then
    ⟨0, { c with upstream_write_timeout := ⟨(strtol optarg).val, 0⟩ }, []⟩
  else if strieq opt SHRPX_OPT_BACKEND_READ_TIMEOUT then
    ⟨0, { c with downstream_read_timeout := ⟨(strtol optarg).val, 0⟩ }, []⟩
  else if strieq opt SHRPX_OPT_BACKEND_WRITE_TIMEOUT then
    ⟨0, { c with downstream_write_timeout := ⟨(strtol optarg).val, 0⟩ }, []⟩
  else if strieq opt SHRPX_OPT_ACCESSLOG then
    ⟨0, { c with accesslog := strieq optarg YES }, []⟩
  else if strieq opt SHRPX_OPT_BACKEND_KEEP_ALIVE_TIMEOUT then
    ⟨0, { c with downstream_idle_read_timeout := ⟨(strtol optarg).val, 0⟩ }, []⟩
  else if strieq opt SHRPX_OPT_FRONTEND_SPDY_WINDOW_BITS then
    let n := strtoul optarg
    if n.erange = false ∧ n.val < 31 then
      ⟨0, { c with spdy_upstream_window_bits := to_size_t n.val }, []⟩
    else ⟨-1, c, [Diag.windowBitsRange]⟩
  else if strieq opt SHRPX_OPT_PID_FILE then
    ⟨0, { c with pid_file := (set_config_str c.pid_file optarg).dest }, []⟩
  else if strieq opt SHRPX_OPT_USER then
    match env.getpwnam (cstr optarg) with
    | none => ⟨-1, c, [Diag.userLookupFailed (cstr optarg)]⟩
    | some pwd => ⟨0, { c with uid := pwd.1, gid := pwd.2 }, []⟩
  else if strieq opt SHRPX_OPT_PRIVATE_KEY_FILE then
    ⟨0, { c with private_key_file := (set_config_str c.private_key_file optarg).dest }, []⟩
  else if strieq opt SHRPX_OPT_CERTIFICATE_FILE then
    ⟨0, { c with cert_file := (set_config_str c.cert_file optarg).dest }, []⟩
  else if strieq opt OPT_CONF then
    ⟨0, c, [Diag.confIgnored]⟩
  else
    ⟨-1, c, [Diag.unknownOption (cstr opt)]⟩

/-- A record with every field zero or unset, for running examples. -/
def Config.zero : Config :=
  { verbose := false, daemon := false, host := none, port := 0, private_key_file := none,
    cert_file := none, verify_client := false, server_name := none, downstream_host := none,
    downstream_port := 0, downstream_hostport := none, downstream_addrlen := 0,
    spdy_upstream_read_timeout := ⟨0, 0⟩, upstream_read_timeout := ⟨0, 0⟩,
    upstream_write_timeout := ⟨0, 0⟩, downstream_read_timeout := ⟨0, 0⟩,
    downstream_write_timeout := ⟨0, 0⟩, downstream_idle_read_timeout := ⟨0, 0⟩,
    num_worker := 0, spdy_max_concurrent_streams := 0, spdy_proxy := false,
    add_x_forwarded_for := false, accesslog := false, spdy_upstream_window_bits := 0,
    pid_file := none, uid := 0, gid := 0, conf_path := none }

/-- Collaborators that know no log level and no account. -/
def Env.none : Env := ⟨fun _ => -1, fun _ => Option.none⟩

/-! ## `load_config` -/

/-- The files that can be opened for reading: the contents by file name, `none`
for a name that cannot be opened. -/
abbrev FileSystem := List Char → Option (List Char)

/-- The lines that successive `std::getline` calls read from a stream holding
`s`: the text is cut at each newline, the newline itself is dropped, and a last
line without a newline counts when it is not empty.  The stream is opened in
binary mode, so nothing else is translated. -/
def getlines : List Char → List (List Char)
  | [] => []
  | c :: cs =>
    if c = '\n' then [] :: getlines cs
    else
      match getlines cs with
      | [] => [[c]]
      | l :: ls => (c :: l) :: ls

/-- The loop `for(i = 0; i < size && line[i] != '='; ++i);`: the value of `i`
after it. -/
def scanEq : List Char → Nat
  | [] => 0
  | c :: cs => if c = '=' then 0 else scanEq cs + 1

/-- What `load_config` leaves: its return value, the record behind
`mod_config()`, the diagnostics, and (for the statements about which lines are
processed) the values of `linenum` at which `parse_config` was called, in
order. -/
structure LoadResult where
  ret : Int
  config : Config
  err : List Diag
  called : List Int
  deriving DecidableEq, Repr

/-- The constant `INT_MAX` for a 32-bit `int`. -/
def INT_MAX : Int := 2 ^ 31 - 1

/-- The increment `++linenum` of the `int` counter: the sum kept in 32 bits,
two's complement.  Up to `INT_MAX` it is the sum; past it the language leaves
the result undefined, and the model takes the wrap-around to `INT_MIN` of the
usual targets. -/
def int_incr (n : Int) : Int := (n + 1 + 2 ^ 31) % 2 ^ 32 - 2 ^ 31

/-- The `while(std::getline(in, line))` loop of `load_config` over the lines
still to be read, with `c` the record and `linenum` the `int` counter on
entry. -/
def load_lines (env : Env) : Config → Int → List (List Char) → LoadResult
  | c, _, [] => ⟨0, c, [], []⟩
  | c, linenum, line :: rest =>
    if line = [] ∨ line.head? = some '#' then
      load_lines env c (int_incr linenum) rest
    else
      let i := scanEq line
      if i = line.length then
        ⟨-1, c, [Diag.badFormat (int_incr linenum)], []⟩
      else
        let s := store line i NUL
        let r := parse_config env c s (s.drop (i + 1))
        if r.ret = -1 then
          ⟨-1, r.config, r.err, [int_incr linenum]⟩
        else
          let r2 := load_lines env r.config (int_incr linenum) rest
          ⟨r2.ret, r2.config, r.err ++ r2.err, (int_incr linenum) :: r2.called⟩

/-- The call `load_config(filename)` on the record `c`. -/
def load_config (env : Env) (fs : FileSystem) (c : Config) (filename : List Char) :
    LoadResult :=
  match fs (cstr filename) with
  | none => ⟨-1, c, [Diag.couldNotOpen (cstr filename)], []⟩
  | some content => load_lines env c 0 (getlines content)

/-! ## Vocabulary of the specification -/

/-- The base-10 numeral of `n`, as `toString` prints it. -/
def decimal (n : Nat) : List Char := Nat.toDigits 10 n

/-- The 21 option names `parse_config` recognises, in the order it tests them. -/
def recognizedOptions : List (List Char) :=
  [SHRPX_OPT_BACKEND, SHRPX_OPT_FRONTEND, SHRPX_OPT_WORKERS,
   SHRPX_OPT_SPDY_MAX_CONCURRENT_STREAMS, SHRPX_OPT_LOG_LEVEL, SHRPX_OPT_DAEMON,
   SHRPX_OPT_SPDY_PROXY, SHRPX_OPT_ADD_X_FORWARDED_FOR,
   SHRPX_OPT_FRONTEND_SPDY_READ_TIMEOUT, SHRPX_OPT_FRONTEND_READ_TIMEOUT,
   SHRPX_OPT_FRONTEND_WRITE_TIMEOUT, SHRPX_OPT_BACKEND_READ_TIMEOUT,
   SHRPX_OPT_BACKEND_WRITE_TIMEOUT, SHRPX_OPT_ACCESSLOG,
   SHRPX_OPT_BACKEND_KEEP_ALIVE_TIMEOUT, SHRPX_OPT_FRONTEND_SPDY_WINDOW_BITS,
   SHRPX_OPT_PID_FILE, SHRPX_OPT_USER, SHRPX_OPT_PRIVATE_KEY_FILE,
   SHRPX_OPT_CERTIFICATE_FILE, OPT_CONF]

/-- Two characters that are equal, or the upper-case and the lower-case form of
one ASCII letter. -/
def charCaseVariant (a b : Char) : Bool :=
  a = b || (65 ≤ a.toNat && a.toNat ≤ 90 && b.toNat = a.toNat + 32) ||
    (65 ≤ b.toNat && b.toNat ≤ 90 && a.toNat = b.toNat + 32)

/-- Two strings of the same length that differ only in the case of ASCII
letters. -/
def caseVariant : List Char → List Char → Bool
  | [], [] => true
  | a :: as, b :: bs => charCaseVariant a b && caseVariant as bs
  | _, _ => false

/-- The declared ranges of the numeric fields: worker count and stream limit
at least 0, window bits from 0 to 30. -/
def Config.inRange (c : Config) : Prop :=
  0 ≤ c.num_worker ∧ 0 ≤ c.spdy_max_concurrent_streams ∧
    0 ≤ c.spdy_upstream_window_bits ∧ c.spdy_upstream_window_bits ≤ 30

/-- The records that a sequence of `parse_config` calls, failed ones included,
makes of a freshly constructed one. -/
inductive Reachable : Config → Prop where
  | fresh (raw : Config) : Reachable (Config.ctor raw)
  | step (env : Env) (c : Config) (opt optarg : List Char) :
      Reachable c → Reachable (parse_config env c opt optarg).config

/-- The base-10 numeral of an integer: a minus sign in front of the numeral of
the magnitude when it is negative. -/
def decimalInt (n : Int) : List Char :=
  if n < 0 then '-' :: decimal n.natAbs else decimal n.toNat

/-- A line the loader skips: the empty line and the line whose first character
is `#`. -/
def isSkipped (line : List Char) : Bool :=
  line.isEmpty || line.head? == some '#'

/-- The name of an assignment line: the text before its first `=`. -/
def nameOf (line : List Char) : List Char :=
  line.takeWhile (fun ch => ch != '=')

/-- The value of an assignment line: all the text after its first `=`. -/
def valueOf (line : List Char) : List Char :=
  (line.dropWhile (fun ch => ch != '=')).drop 1

/-- One line applied to a record, in the words of the specification: a skipped
line leaves the record; a line without `=` fails; any other line is the call
`parse_config(name, value)`, which fails when it returns -1.  `none` stands for
failure. -/
def applyLine (env : Env) (c : Config) (line : List Char) : Option Config :=
  if isSkipped line then some c
  else if '=' ∈ line then
    if (parse_config env c (nameOf line) (valueOf line)).ret = -1 then none
    else some (parse_config env c (nameOf line) (valueOf line)).config
  else none

/-- The lines applied one after the other, in file order, as long as none
fails. -/
def applyLines (env : Env) : Config → List (List Char) → Option Config
  | c, [] => some c
  | c, l :: ls =>
    match applyLine env c l with
    | none => none
    | some c2 => applyLines env c2 ls

/-- The line counter after `m` more lines have been read. -/
def counterAfter : Int → Nat → Int
  | n, 0 => n
  | n, m + 1 => counterAfter (int_incr n) m

/-- The contents of a file of 2147483647 empty lines followed by the line `x`,
which has no `=`: its line 2147483648. -/
def manyLines : List Char := List.replicate 2147483647 '\n' ++ ['x']

/-- A file system for running examples, with four files: `ok.conf` (a comment,
two assignments around a blank line, a value holding an `=`), `bad.conf` (its
fifth line names an unknown option), `noeq.conf` (its third line has no `=`)
and `comments.conf` (comments and blank lines only). -/
def sampleFiles : FileSystem := fun name =>
  if name = "ok.conf".toList then
    some "# shrpx\ndaemon=yes\n\npid-file=/a=b\nworkers=4\n".toList
  else if name = "bad.conf".toList then
    some "# shrpx\ndaemon=yes\n\npid-file=/a=b\nbogus=1\nworkers=4\n".toList
  else if name = "noeq.conf".toList then
    some "daemon=yes\n# next\nworkers 4\nspdy-proxy=yes\n".toList
  else if name = "comments.conf".toList then
    some "# one\n\n#two=2\n#\n".toList
  else none

/-! ## C strings: lemmas -/

theorem cstr_append_of_no_nul (h t : List Char) (hn : NUL ∉ h) :
    cstr (h ++ t) = h ++ cstr t := by
  induction h with
  | nil => rfl
  | cons a as ih =>
    have ha : a ≠ NUL := fun e => hn (e ▸ List.mem_cons_self _ _)
    have has : NUL ∉ as := fun m => hn (List.mem_cons_of_mem _ m)
    simp [cstr, ha, ih has]

theorem cstr_eq_self (h : List Char) (hn : NUL ∉ h) : cstr h = h := by
  have := cstr_append_of_no_nul h [] hn
  simpa [cstr] using this

theorem cstr_append_nul (h rest : List Char) (hn : NUL ∉ h) :
    cstr (h ++ NUL :: rest) = h := by
  rw [cstr_append_of_no_nul h _ hn]
  simp [cstr]

theorem nul_not_mem_cstr (s : List Char) : NUL ∉ cstr s := by
  induction s with
  | nil => simp [cstr]
  | cons a as ih =>
    by_cases ha : a = NUL
    · simp [cstr, ha]
    · simp only [cstr, ha, if_false, List.mem_cons, not_or]
      exact ⟨fun e => ha e.symm, ih⟩

theorem strchr_append (h t : List Char) (c : Char) (hc : c ∉ h) (hn : NUL ∉ h) :
    strchr (h ++ c :: t) c = some h.length := by
  induction h with
  | nil => simp [strchr]
  | cons a as ih =>
    have ha : a ≠ NUL := fun e => hn (e ▸ List.mem_cons_self _ _)
    have hac : a ≠ c := fun e => hc (e ▸ List.mem_cons_self _ _)
    have h1 := ih (fun m => hc (List.mem_cons_of_mem _ m)) (fun m => hn (List.mem_cons_of_mem _ m))
    simp [strchr, ha, hac, h1]

theorem strchr_eq_none (s : List Char) (c : Char) (hc : c ≠ NUL) :
    strchr s c = none ↔ c ∉ cstr s := by
  induction s with
  | nil => simp [strchr, cstr, hc]
  | cons a as ih =>
    by_cases hac : a = c
    · subst hac
      simp [strchr, cstr, hc]
    · by_cases ha : a = NUL
      · subst ha
        simp [strchr, cstr, hac]
      · have hca : ¬ c = a := fun e => hac e.symm
        simp [strchr, cstr, hac, ha, ih, hca]

/-- What a successful `strchr` says about its argument: the offset is inside
the string, the character there is `c`, and the `k` characters before it hold
neither `c` nor NUL (so they are the first `k` characters of the C string). -/
theorem strchr_some (s : List Char) (c : Char) (hc : c ≠ NUL) (k : Nat)
    (h : strchr s c = some k) :
    s = s.take k ++ c :: s.drop (k + 1) ∧ (s.take k).length = k ∧
      c ∉ s.take k ∧ NUL ∉ s.take k := by
  induction s generalizing k with
  | nil => simp [strchr, hc] at h
  | cons a as ih =>
    by_cases hac : a = c
    · subst hac
      simp [strchr] at h
      subst h
      simp
    · by_cases ha : a = NUL
      · subst ha
        simp [strchr, hac] at h
      · simp only [strchr, hac, ha, if_false, Option.map_eq_some'] at h
        obtain ⟨j, hj, rfl⟩ := h
        obtain ⟨h1, h2, h3, h4⟩ := ih j hj
        refine ⟨?_, ?_, ?_, ?_⟩
        · simp only [List.take_succ_cons, List.drop_succ_cons, List.cons_append]
          rw [← h1]
        · simp [h2]
        · simp only [List.take_succ_cons, List.mem_cons, not_or]
          exact ⟨fun e => hac e.symm, h3⟩
        · simp only [List.take_succ_cons, List.mem_cons, not_or]
          exact ⟨fun e => ha e.symm, h4⟩

/-! ## Numerals: lemmas -/

theorem digitChar_spec (k : Nat) (hk : k < 10) :
    isdigit (Nat.digitChar k) = true ∧ (Nat.digitChar k).toNat - 48 = k := by
  interval_cases k <;> decide

theorem isdigit_not_space (c : Char) (h : isdigit c = true) : isspace c = false := by
  simp only [isdigit, isspace, Bool.and_eq_true, decide_eq_true_eq, Bool.or_eq_false_iff,
    decide_eq_false_iff_not, Bool.and_eq_false_iff] at *
  omega

theorem isdigit_not_sign (c : Char) (h : isdigit c = true) : c ≠ '-' ∧ c ≠ '+' := by
  constructor
  · rintro rfl
    exact absurd h (by decide)
  · rintro rfl
    exact absurd h (by decide)

/-- Reading a run of digits that is followed by no further digit. -/
theorem digitsValue_append (ds t : List Char) (acc : Nat)
    (hds : ∀ c ∈ ds, isdigit c = true) (ht : startsWithDigit t = false) :
    digitsValue acc (ds ++ t) = ds.foldl (fun a c => a * 10 + (c.toNat - 48)) acc := by
  induction ds generalizing acc with
  | nil =>
    cases t with
    | nil => rfl
    | cons x xs =>
      simp only [startsWithDigit] at ht
      simp [digitsValue, ht]
  | cons d ds ih =>
    have hd := hds d (List.mem_cons_self _ _)
    simp only [List.cons_append, digitsValue, hd, if_true, List.foldl_cons]
    exact ih _ (fun c hc => hds c (List.mem_cons_of_mem _ hc))

/-- The accumulator of `Nat.toDigitsCore` is a suffix of its result. -/
theorem toDigitsCore_acc (f : Nat) : ∀ (n : Nat) (acc : List Char),
    Nat.toDigitsCore 10 f n acc = Nat.toDigitsCore 10 f n [] ++ acc := by
  induction f with
  | zero => intro n acc; simp [Nat.toDigitsCore]
  | succ f ih =>
    intro n acc
    unfold Nat.toDigitsCore
    by_cases h0 : n / 10 = 0
    · simp [h0]
    · simp only [h0, if_false]
      rw [ih (n / 10) (Nat.digitChar (n % 10) :: acc), ih (n / 10) [Nat.digitChar (n % 10)]]
      simp

/-- With more fuel than the number, the fuel of `Nat.toDigitsCore` does not
matter. -/
theorem toDigitsCore_fuel (f1 : Nat) : ∀ (f2 n : Nat) (acc : List Char), n < f1 → n < f2 →
    Nat.toDigitsCore 10 f1 n acc = Nat.toDigitsCore 10 f2 n acc := by
  induction f1 with
  | zero => intro f2 n acc h; omega
  | succ f1 ih =>
    intro f2 n acc h1 h2
    cases f2 with
    | zero => omega
    | succ f2 =>
      unfold Nat.toDigitsCore
      by_cases h0 : n / 10 = 0
      · simp [h0]
      · simp only [h0, if_false]
        exact ih f2 (n / 10) _ (by omega) (by omega)

/-- The numeral of a number below 10 is its digit; the numeral of a larger one
is the numeral of its tenth followed by its last digit. -/
theorem decimal_unfold (n : Nat) :
    decimal n =
      if n < 10 then [Nat.digitChar n] else decimal (n / 10) ++ [Nat.digitChar (n % 10)] := by
  unfold decimal Nat.toDigits
  by_cases hn : n < 10
  · have h0 : n / 10 = 0 := Nat.div_eq_of_lt hn
    have hm : n % 10 = n := Nat.mod_eq_of_lt hn
    unfold Nat.toDigitsCore
    simp [h0, hm, hn]
  · have h0 : ¬ n / 10 = 0 := by omega
    rw [if_neg hn]
    conv => lhs; unfold Nat.toDigitsCore
    simp only [h0, if_false]
    rw [toDigitsCore_acc n (n / 10) [Nat.digitChar (n % 10)],
      toDigitsCore_fuel n (n / 10 + 1) (n / 10) [] (by omega) (by omega)]

/-- The numeral of `n` is a non-empty run of digits whose value is `n`. -/
theorem decimal_spec (n : Nat) :
    decimal n ≠ [] ∧ (∀ c ∈ decimal n, isdigit c = true) ∧
      (decimal n).foldl (fun a c => a * 10 + (c.toNat - 48)) 0 = n := by
  induction n using Nat.strong_induction_on with
  | _ n ih =>
    have hd := digitChar_spec (n % 10) (Nat.mod_lt _ (by decide))
    rw [decimal_unfold]
    by_cases hn : n < 10
    · rw [Nat.mod_eq_of_lt hn] at hd
      simp only [hn, if_true, List.foldl_cons, List.foldl_nil, hd.2, List.mem_singleton]
      refine ⟨by simp, ?_, by omega⟩
      intro c hc
      rw [hc]
      exact hd.1
    · obtain ⟨_, h2, h3⟩ := ih (n / 10) (by omega)
      simp only [hn, if_false, List.foldl_append, List.foldl_cons, List.foldl_nil, h3, hd.2]
      refine ⟨by simp, ?_, by omega⟩
      intro c hc
      rw [List.mem_append, List.mem_singleton] at hc
      rcases hc with hc | hc
      · exact h2 c hc
      · rw [hc]
        exact hd.1

/-- The sign and digit scan of `strtoul`/`strtol` on a numeral followed by text
that does not start with a digit. -/
theorem scan_decimal (n : Nat) (t : List Char) (ht : startsWithDigit t = false) :
    takeSign (skipSpace (decimal n ++ t)) = (false, decimal n ++ t) ∧
      startsWithDigit (decimal n ++ t) = true ∧ digitsValue 0 (decimal n ++ t) = n := by
  obtain ⟨h1, h2, h3⟩ := decimal_spec n
  have hv := digitsValue_append (decimal n) t 0 h2 ht
  rw [h3] at hv
  cases hd : decimal n with
  | nil => exact absurd hd h1
  | cons d ds =>
    rw [hd] at hv
    have hdig : isdigit d = true := h2 d (by rw [hd]; exact List.mem_cons_self _ _)
    have hsp := isdigit_not_space d hdig
    obtain ⟨hm, hp⟩ := isdigit_not_sign d hdig
    refine ⟨?_, ?_, hv⟩
    · simp [skipSpace, takeSign, hsp, hm, hp]
    · simp [startsWithDigit, hdig]

theorem strtoul_decimal (n : Nat) (t : List Char) (ht : startsWithDigit t = false) :
    strtoul (decimal n ++ t) = if ULONG_MAX < n then ⟨ULONG_MAX, true⟩ else ⟨n, false⟩ := by
  obtain ⟨h1, h2, h3⟩ := scan_decimal n t ht
  simp [strtoul, h1, h2, h3]

theorem strtol_decimal (n : Nat) (t : List Char) (ht : startsWithDigit t = false) :
    strtol (decimal n ++ t) = if LONG_MAX < n then ⟨(LONG_MAX : Int), true⟩ else ⟨(n : Int), false⟩ := by
  obtain ⟨h1, h2, h3⟩ := scan_decimal n t ht
  simp [strtol, h1, h2, h3]

/-! ## `split_host_port`: theorems -/

/-- The three outcomes of `split_host_port` on a token whose first comma comes
after the text `h`. -/
theorem split_host_port_comma (host : List Char) (hostlen port : Nat) (h t : List Char)
    (hcomma : ',' ∉ h) (hnul : NUL ∉ h) :
    split_host_port host hostlen port (h ++ ',' :: t) =
      if hostlen < h.length + 1 then
        ⟨-1, host, port, [Diag.hostnameTooLong (cstr (h ++ ',' :: t))]⟩
      else if (strtoul t).erange = false ∧ 1 ≤ (strtoul t).val ∧ (strtoul t).val ≤ 65535 then
        ⟨0, h ++ NUL :: host.drop (h.length + 1), (strtoul t).val % 65536, []⟩
      else
        ⟨-1, h ++ NUL :: host.drop (h.length + 1), port, [Diag.portInvalid (cstr t)]⟩ := by
  have hbuf : store (memcpy host (h ++ ',' :: t) h.length) h.length NUL =
      h ++ NUL :: host.drop (h.length + 1) := by
    simp [store, memcpy, List.take_append_eq_append_take, List.drop_append_eq_append_drop]
  have hrest : (h ++ ',' :: t).drop (h.length + 1) = t := by
    simp [List.drop_append_eq_append_drop]
  unfold split_host_port
  rw [strchr_append h t ',' hcomma hnul]
  simp only [hbuf, hrest]

/-- C1: for a host `h` without comma and NUL that fits the buffer with its
terminator and a port `n` from 1 to 65535, `split_host_port` on
`h ++ "," ++ decimal n` returns 0, leaves `h` followed by the terminator at the
start of the host buffer (the C string there is `h`), stores `n` in the port and
prints nothing. -/
theorem split_host_port_roundtrip (host : List Char) (hostlen port : Nat) (h : List Char)
    (n : Nat) (hcomma : ',' ∉ h) (hnul : NUL ∉ h) (hlen : h.length + 1 ≤ hostlen)
    (hn1 : 1 ≤ n) (hn2 : n ≤ 65535) :
    (split_host_port host hostlen port (h ++ ',' :: decimal n)).ret = 0 ∧
      (split_host_port host hostlen port (h ++ ',' :: decimal n)).host =
        h ++ NUL :: host.drop (h.length + 1) ∧
      cstr (split_host_port host hostlen port (h ++ ',' :: decimal n)).host = h ∧
      (split_host_port host hostlen port (h ++ ',' :: decimal n)).port = n ∧
      (split_host_port host hostlen port (h ++ ',' :: decimal n)).err = [] := by
  have hd : strtoul (decimal n) = ⟨n, false⟩ := by
    have := strtoul_decimal n [] rfl
    rw [List.append_nil] at this
    rw [this, if_neg]
    simp only [ULONG_MAX]
    omega
  rw [split_host_port_comma host hostlen port h _ hcomma hnul, hd]
  have h1 : ¬ hostlen < h.length + 1 := by omega
  have h3 : n % 65536 = n := Nat.mod_eq_of_lt (by omega)
  simp only [h1, if_false, hn1, hn2, and_self, if_true, h3, true_and, and_true]
  exact cstr_append_nul h _ hnul

/-- The token `example.com,443` in a 16-byte buffer: host `example.com`, port 443. -/
theorem split_host_port_roundtrip_witness :
    "example.com".toList ++ ',' :: decimal 443 = "example.com,443".toList ∧
      (split_host_port (List.replicate 16 'x') 16 0 ("example.com".toList ++ ',' :: decimal 443)).ret = 0 ∧
      (split_host_port (List.replicate 16 'x') 16 0 ("example.com".toList ++ ',' :: decimal 443)).host =
        "example.com".toList ++ NUL :: (List.replicate 16 'x').drop ("example.com".toList.length + 1) ∧
      cstr (split_host_port (List.replicate 16 'x') 16 0
        ("example.com".toList ++ ',' :: decimal 443)).host = "example.com".toList ∧
      (split_host_port (List.replicate 16 'x') 16 0 ("example.com".toList ++ ',' :: decimal 443)).port = 443 ∧
      (split_host_port (List.replicate 16 'x') 16 0 ("example.com".toList ++ ',' :: decimal 443)).err = [] :=
  ⟨by decide, split_host_port_roundtrip (List.replicate 16 'x') 16 0 "example.com".toList 443
    (by decide) (by decide) (by decide) (by decide) (by decide)⟩

/-- What `split_host_port` returns, stores in the port and prints does not
depend on what the host buffer held before the call, and after a successful call
neither does the C string in the buffer. -/
theorem split_host_port_buffer_irrelevant (b1 b2 : List Char) (hostlen port : Nat)
    (hostport : List Char) :
    (split_host_port b1 hostlen port hostport).ret =
        (split_host_port b2 hostlen port hostport).ret ∧
      (split_host_port b1 hostlen port hostport).port =
        (split_host_port b2 hostlen port hostport).port ∧
      (split_host_port b1 hostlen port hostport).err =
        (split_host_port b2 hostlen port hostport).err ∧
      ((split_host_port b1 hostlen port hostport).ret = 0 →
        cstr (split_host_port b1 hostlen port hostport).host =
          cstr (split_host_port b2 hostlen port hostport).host) := by
  cases hs : strchr hostport ',' with
  | none => simp [split_host_port, hs]
  | some len =>
    obtain ⟨h1, _, h3, h4⟩ := strchr_some hostport ',' (by decide) len hs
    rw [h1, split_host_port_comma b1 hostlen port _ _ h3 h4,
      split_host_port_comma b2 hostlen port _ _ h3 h4]
    split_ifs
    · simp
    · simp [cstr_append_nul _ _ h4]
    · simp

/-- A call of `split_host_port` that returns 0 has stored a port from 1 to
65535, whatever the token. -/
theorem split_host_port_ret_zero (host : List Char) (hostlen port : Nat) (hostport : List Char)
    (h : (split_host_port host hostlen port hostport).ret = 0) :
    1 ≤ (split_host_port host hostlen port hostport).port ∧
      (split_host_port host hostlen port hostport).port ≤ 65535 := by
  unfold split_host_port at h ⊢
  cases hs : strchr hostport ',' with
  | none => simp [hs] at h
  | some len =>
    simp only [hs] at h ⊢
    split_ifs at h ⊢ with h1 h2
    · simp at h
    · obtain ⟨_, h3, h4⟩ := h2
      have : (strtoul (List.drop (len + 1) hostport)).val % 65536 =
          (strtoul (List.drop (len + 1) hostport)).val := Nat.mod_eq_of_lt (by omega)
      simp only [this]
      exact ⟨h3, h4⟩
    · simp at h

/-- The return value of `split_host_port` is 0 or -1. -/
theorem split_host_port_ret (host : List Char) (hostlen port : Nat) (hostport : List Char) :
    (split_host_port host hostlen port hostport).ret = 0 ∨
      (split_host_port host hostlen port hostport).ret = -1 := by
  unfold split_host_port
  cases strchr hostport ',' with
  | none => simp
  | some len =>
    simp only
    split_ifs <;> simp

theorem strieq_backend : strieq SHRPX_OPT_BACKEND SHRPX_OPT_BACKEND = true := by decide

theorem strieq_frontend :
    strieq SHRPX_OPT_FRONTEND SHRPX_OPT_BACKEND = false ∧
      strieq SHRPX_OPT_FRONTEND SHRPX_OPT_FRONTEND = true := by decide

/-- C2: on a token with a comma whose host part fits the buffer,
`split_host_port` returns -1 and leaves the port output as it was whenever
`strtoul` on the text after the first comma reports a range error, or yields 0
or more than 65535.  On every token, a return value of 0 comes with a stored
port from 1 to 65535; so the ports the `backend` and `frontend` options store
in the record are from 1 to 65535. -/
theorem split_host_port_port_range (host : List Char) (hostlen port : Nat) (h t : List Char)
    (hcomma : ',' ∉ h) (hnul : NUL ∉ h) (hfit : h.length + 1 ≤ hostlen)
    (hbad : (strtoul t).erange = true ∨ (strtoul t).val = 0 ∨ 65535 < (strtoul t).val) :
    ((split_host_port host hostlen port (h ++ ',' :: t)).ret = -1 ∧
      (split_host_port host hostlen port (h ++ ',' :: t)).port = port) ∧
    (∀ (buf : List Char) (len p : Nat) (tok : List Char),
      (split_host_port buf len p tok).ret = 0 →
        1 ≤ (split_host_port buf len p tok).port ∧
          (split_host_port buf len p tok).port ≤ 65535) ∧
    (∀ (env : Env) (c : Config) (v : List Char),
      (parse_config env c SHRPX_OPT_BACKEND v).ret = 0 →
        1 ≤ (parse_config env c SHRPX_OPT_BACKEND v).config.downstream_port ∧
          (parse_config env c SHRPX_OPT_BACKEND v).config.downstream_port ≤ 65535) ∧
    (∀ (env : Env) (c : Config) (v : List Char),
      (parse_config env c SHRPX_OPT_FRONTEND v).ret = 0 →
        1 ≤ (parse_config env c SHRPX_OPT_FRONTEND v).config.port ∧
          (parse_config env c SHRPX_OPT_FRONTEND v).config.port ≤ 65535) := by
  refine ⟨?_, split_host_port_ret_zero, ?_, ?_⟩
  · rw [split_host_port_comma host hostlen port h t hcomma hnul]
    have h1 : ¬ hostlen < h.length + 1 := by omega
    have h2 : ¬ ((strtoul t).erange = false ∧ 1 ≤ (strtoul t).val ∧ (strtoul t).val ≤ 65535) := by
      rintro ⟨e1, e2, e3⟩
      rcases hbad with hb | hb | hb
      · rw [e1] at hb; exact absurd hb (by decide)
      · omega
      · omega
    simp only [h1, h2, if_false, and_self]
  · intro env c v
    have key := split_host_port_ret_zero hostBuffer NI_MAXHOST 0 v
    simp only [parse_config, strieq_backend, if_true]
    split_ifs with h1
    · intro h0; simp at h0
    · intro _
      apply key
      have := split_host_port_ret hostBuffer NI_MAXHOST 0 v
      tauto
  · intro env c v
    have key := split_host_port_ret_zero hostBuffer NI_MAXHOST 0 v
    simp only [parse_config, strieq_frontend.1, strieq_frontend.2, if_true, Bool.false_eq_true,
      if_false]
    split_ifs with h1
    · intro h0; simp at h0
    · intro _
      apply key
      have := split_host_port_ret hostBuffer NI_MAXHOST 0 v
      tauto

/-- The tokens `example.com,70000`, `example.com,0` and `example.com,` (port
output 7 before the call): each fails and leaves 7. -/
theorem split_host_port_port_range_witness :
    ((split_host_port (List.replicate 16 'x') 16 7 "example.com,70000".toList).ret = -1 ∧
      (split_host_port (List.replicate 16 'x') 16 7 "example.com,70000".toList).port = 7) ∧
    ((split_host_port (List.replicate 16 'x') 16 7 "example.com,0".toList).ret = -1 ∧
      (split_host_port (List.replicate 16 'x') 16 7 "example.com,0".toList).port = 7) ∧
    ((split_host_port (List.replicate 16 'x') 16 7 "example.com,".toList).ret = -1 ∧
      (split_host_port (List.replicate 16 'x') 16 7 "example.com,".toList).port = 7) :=
  ⟨(split_host_port_port_range (List.replicate 16 'x') 16 7 "example.com".toList "70000".toList
      (by decide) (by decide) (by decide) (by decide)).1,
   (split_host_port_port_range (List.replicate 16 'x') 16 7 "example.com".toList "0".toList
      (by decide) (by decide) (by decide) (by decide)).1,
   (split_host_port_port_range (List.replicate 16 'x') 16 7 "example.com".toList []
      (by decide) (by decide) (by decide) (by decide)).1⟩

/-- C3: on a token whose C string holds no comma, `split_host_port` returns -1
with the host buffer and the port output as they were before the call (and
prints the "Invalid host, port" line). -/
theorem split_host_port_no_comma (host : List Char) (hostlen port : Nat) (hostport : List Char)
    (h : ',' ∉ cstr hostport) :
    (split_host_port host hostlen port hostport).ret = -1 ∧
      (split_host_port host hostlen port hostport).host = host ∧
      (split_host_port host hostlen port hostport).port = port ∧
      (split_host_port host hostlen port hostport).err =
        [Diag.invalidHostPort (cstr hostport)] := by
  have hs : strchr hostport ',' = none := (strchr_eq_none hostport ',' (by decide)).2 h
  simp [split_host_port, hs]

/-- The token `example.com` has no comma: failure, buffer and port untouched. -/
theorem split_host_port_no_comma_witness :
    (split_host_port (List.replicate 16 'x') 16 7 "example.com".toList).ret = -1 ∧
      (split_host_port (List.replicate 16 'x') 16 7 "example.com".toList).host =
        List.replicate 16 'x' ∧
      (split_host_port (List.replicate 16 'x') 16 7 "example.com".toList).port = 7 ∧
      (split_host_port (List.replicate 16 'x') 16 7 "example.com".toList).err =
        [Diag.invalidHostPort (cstr "example.com".toList)] :=
  split_host_port_no_comma (List.replicate 16 'x') 16 7 "example.com".toList (by decide)

/-- C4: on a token whose first comma comes after `len = h.length` characters,
with a host buffer of at least `hostlen` bytes: the call fails with the
"Hostname too long" line exactly when `hostlen < len + 1`, and then host buffer
and port are as before the call; when `len + 1 ≤ hostlen` the buffer afterwards
is `h`, the terminator, and the old contents from index `len + 1` on: its
length is unchanged and every index from `hostlen` on holds what it held.
`len + 1 = hostlen` is accepted and `len = hostlen` rejected. -/
theorem split_host_port_host_bound (host : List Char) (hostlen port : Nat) (h t : List Char)
    (hcomma : ',' ∉ h) (hnul : NUL ∉ h) (hbuf : hostlen ≤ host.length) :
    ((split_host_port host hostlen port (h ++ ',' :: t)).err =
        [Diag.hostnameTooLong (cstr (h ++ ',' :: t))] ↔ hostlen < h.length + 1) ∧
    (hostlen < h.length + 1 →
      (split_host_port host hostlen port (h ++ ',' :: t)).ret = -1 ∧
      (split_host_port host hostlen port (h ++ ',' :: t)).host = host ∧
      (split_host_port host hostlen port (h ++ ',' :: t)).port = port) ∧
    (h.length + 1 ≤ hostlen →
      (split_host_port host hostlen port (h ++ ',' :: t)).host =
        h ++ NUL :: host.drop (h.length + 1) ∧
      (split_host_port host hostlen port (h ++ ',' :: t)).host.length = host.length ∧
      (split_host_port host hostlen port (h ++ ',' :: t)).host.drop hostlen =
        host.drop hostlen) ∧
    (h.length + 1 = hostlen →
      (split_host_port host hostlen port (h ++ ',' :: t)).err ≠
        [Diag.hostnameTooLong (cstr (h ++ ',' :: t))]) ∧
    (h.length = hostlen →
      (split_host_port host hostlen port (h ++ ',' :: t)).err =
        [Diag.hostnameTooLong (cstr (h ++ ',' :: t))]) := by
  have key := split_host_port_comma host hostlen port h t hcomma hnul
  have hiff : (split_host_port host hostlen port (h ++ ',' :: t)).err =
        [Diag.hostnameTooLong (cstr (h ++ ',' :: t))] ↔ hostlen < h.length + 1 := by
    rw [key]
    split_ifs with h1 h2
    · simp [h1]
    · simp [h1]
    · simp [h1]
  refine ⟨hiff, ?_, ?_, ?_, ?_⟩
  · intro hlt
    rw [key]
    simp [hlt]
  · intro hle
    have h1 : ¬ hostlen < h.length + 1 := by omega
    have hhost : (split_host_port host hostlen port (h ++ ',' :: t)).host =
        h ++ NUL :: host.drop (h.length + 1) := by
      rw [key]
      simp only [h1, if_false]
      split_ifs <;> rfl
    rw [hhost]
    refine ⟨rfl, ?_, ?_⟩
    · simp only [List.length_append, List.length_cons, List.length_drop]
      omega
    · have e : hostlen = h.length + (1 + (hostlen - (h.length + 1))) := by omega
      rw [e, List.drop_append, ← List.drop_drop]
      simp only [List.drop_succ_cons, List.drop_zero, List.drop_drop]
      congr 1
      omega
  · intro he hx
    have := hiff.1 hx
    omega
  · intro he
    rw [hiff]
    omega

/-- An 11-character host in a buffer of 12 (accepted) and of 11 (rejected,
nothing written). -/
theorem split_host_port_host_bound_witness :
    (split_host_port (List.replicate 12 'x') 12 7 "example.com,80".toList).host =
        "example.com".toList ++ [NUL] ∧
    (split_host_port (List.replicate 12 'x') 11 7 "example.com,80".toList).ret = -1 ∧
    (split_host_port (List.replicate 12 'x') 11 7 "example.com,80".toList).host =
        List.replicate 12 'x' ∧
    (split_host_port (List.replicate 12 'x') 11 7 "example.com,80".toList).port = 7 :=
  ⟨((split_host_port_host_bound (List.replicate 12 'x') 12 7 "example.com".toList "80".toList
      (by decide) (by decide) (by decide)).2.2.1 (by decide)).1,
   (split_host_port_host_bound (List.replicate 12 'x') 11 7 "example.com".toList "80".toList
      (by decide) (by decide) (by decide)).2.1 (by decide)⟩

/-! ## `parse_config`: the branch each option name takes -/

theorem parse_config_workers (env : Env) (c : Config) (v : List Char) :
    parse_config env c SHRPX_OPT_WORKERS v = ⟨0, { c with num_worker := to_size_t (strtol v).val }, []⟩ := rfl

theorem parse_config_spdy_max_concurrent_streams (env : Env) (c : Config) (v : List Char) :
    parse_config env c SHRPX_OPT_SPDY_MAX_CONCURRENT_STREAMS v = ⟨0, { c with spdy_max_concurrent_streams := to_size_t (strtol v).val }, []⟩ := rfl

theorem parse_config_daemon (env : Env) (c : Config) (v : List Char) :
    parse_config env c SHRPX_OPT_DAEMON v = ⟨0, { c with daemon := strieq v YES }, []⟩ := rfl

theorem parse_config_spdy_proxy (env : Env) (c : Config) (v : List Char) :
    parse_config env c SHRPX_OPT_SPDY_PROXY v = ⟨0, { c with spdy_proxy := strieq v YES }, []⟩ := rfl

theorem parse_config_add_x_forwarded_for (env : Env) (c : Config) (v : List Char) :
    parse_config env c SHRPX_OPT_ADD_X_FORWARDED_FOR v = ⟨0, { c with add_x_forwarded_for := strieq v YES }, []⟩ := rfl

theorem parse_config_frontend_spdy_read_timeout (env : Env) (c : Config) (v : List Char) :
    parse_config env c SHRPX_OPT_FRONTEND_SPDY_READ_TIMEOUT v = ⟨0, { c with spdy_upstream_read_timeout := ⟨(strtol v).val, 0⟩ }, []⟩ := rfl

theorem parse_config_frontend_read_timeout (env : Env) (c : Config) (v : List Char) :
    parse_config env c SHRPX_OPT_FRONTEND_READ_TIMEOUT v = ⟨0, { c with upstream_read_timeout := ⟨(strtol v).val, 0⟩ }, []⟩ := rfl

theorem parse_config_frontend_write_timeout (env : Env) (c : Config) (v : List Char) :
    parse_config env c SHRPX_OPT_FRONTEND_WRITE_TIMEOUT v = ⟨0, { c with upstream_write_timeout := ⟨(strtol v).val, 0⟩ }, []⟩ := rfl

theorem parse_config_backend_read_timeout (env : Env) (c : Config) (v : List Char) :
    parse_config env c SHRPX_OPT_BACKEND_READ_TIMEOUT v = ⟨0, { c with downstream_read_timeout := ⟨(strtol v).val, 0⟩ }, []⟩ := rfl

theorem parse_config_backend_write_timeout (env : Env) (c : Config) (v : List Char) :
    parse_config env c SHRPX_OPT_BACKEND_WRITE_TIMEOUT v = ⟨0, { c with downstream_write_timeout := ⟨(strtol v).val, 0⟩ }, []⟩ := rfl

theorem parse_config_accesslog (env : Env) (c : Config) (v : List Char) :
    parse_config env c SHRPX_OPT_ACCESSLOG v = ⟨0, { c with accesslog := strieq v YES }, []⟩ := rfl

theorem parse_config_backend_keep_alive_timeout (env : Env) (c : Config) (v : List Char) :
    parse_config env c SHRPX_OPT_BACKEND_KEEP_ALIVE_TIMEOUT v = ⟨0, { c with downstream_idle_read_timeout := ⟨(strtol v).val, 0⟩ }, []⟩ := rfl

theorem parse_config_pid_file (env : Env) (c : Config) (v : List Char) :
    parse_config env c SHRPX_OPT_PID_FILE v = ⟨0, { c with pid_file := (set_config_str c.pid_file v).dest }, []⟩ := rfl

theorem parse_config_private_key_file (env : Env) (c : Config) (v : List Char) :
    parse_config env c SHRPX_OPT_PRIVATE_KEY_FILE v = ⟨0, { c with private_key_file := (set_config_str c.private_key_file v).dest }, []⟩ := rfl

theorem parse_config_certificate_file (env : Env) (c : Config) (v : List Char) :
    parse_config env c SHRPX_OPT_CERTIFICATE_FILE v = ⟨0, { c with cert_file := (set_config_str c.cert_file v).dest }, []⟩ := rfl

theorem parse_config_backend (env : Env) (c : Config) (v : List Char) :
    parse_config env c SHRPX_OPT_BACKEND v =
      if (split_host_port hostBuffer NI_MAXHOST 0 v).ret = -1 then
        ⟨-1, c, (split_host_port hostBuffer NI_MAXHOST 0 v).err⟩
      else
        ⟨0, { c with
              downstream_host :=
                (set_config_str c.downstream_host (split_host_port hostBuffer NI_MAXHOST 0 v).host).dest
              downstream_port := (split_host_port hostBuffer NI_MAXHOST 0 v).port },
          (split_host_port hostBuffer NI_MAXHOST 0 v).err⟩ := rfl

theorem parse_config_frontend (env : Env) (c : Config) (v : List Char) :
    parse_config env c SHRPX_OPT_FRONTEND v =
      if (split_host_port hostBuffer NI_MAXHOST 0 v).ret = -1 then
        ⟨-1, c, (split_host_port hostBuffer NI_MAXHOST 0 v).err⟩
      else
        ⟨0, { c with
              host := (set_config_str c.host (split_host_port hostBuffer NI_MAXHOST 0 v).host).dest
              port := (split_host_port hostBuffer NI_MAXHOST 0 v).port },
          (split_host_port hostBuffer NI_MAXHOST 0 v).err⟩ := rfl

theorem parse_config_log_level (env : Env) (c : Config) (v : List Char) :
    parse_config env c SHRPX_OPT_LOG_LEVEL v =
      if env.set_severity_level_by_name (cstr v) = -1 then
        ⟨-1, c, [Diag.invalidSeverity (cstr v)]⟩
      else ⟨0, c, []⟩ := rfl

theorem parse_config_frontend_spdy_window_bits (env : Env) (c : Config) (v : List Char) :
    parse_config env c SHRPX_OPT_FRONTEND_SPDY_WINDOW_BITS v =
      if (strtoul v).erange = false ∧ (strtoul v).val < 31 then
        ⟨0, { c with spdy_upstream_window_bits := to_size_t (strtoul v).val }, []⟩
      else ⟨-1, c, [Diag.windowBitsRange]⟩ := rfl

theorem parse_config_user (env : Env) (c : Config) (v : List Char) :
    parse_config env c SHRPX_OPT_USER v =
      match env.getpwnam (cstr v) with
      | none => ⟨-1, c, [Diag.userLookupFailed (cstr v)]⟩
      | some pwd => ⟨0, { c with uid := pwd.1, gid := pwd.2 }, []⟩ := rfl

theorem parse_config_conf (env : Env) (c : Config) (v : List Char) :
    parse_config env c OPT_CONF v = ⟨0, c, [Diag.confIgnored]⟩ := rfl

/-! ## Case-insensitive comparison: lemmas -/

theorem char_toNat_inj (a b : Char) : a.toNat = b.toNat ↔ a = b := by
  constructor
  · intro h
    have := congrArg Char.ofNat h
    simpa using this
  · intro h; rw [h]

theorem char_eq_nul (a : Char) : a = NUL ↔ a.toNat = 0 := by
  rw [← char_toNat_inj]
  rfl

theorem lowcase_toNat (c : Char) :
    (lowcase c).toNat = if 65 ≤ c.toNat ∧ c.toNat ≤ 90 then c.toNat + 32 else c.toNat := by
  unfold lowcase
  split_ifs with h
  · obtain ⟨h1, h2⟩ := h
    generalize c.toNat = n at h1 h2
    interval_cases n <;> rfl
  · rfl

theorem charCaseVariant_iff (a b : Char) :
    charCaseVariant a b = true ↔ lowcase a = lowcase b := by
  rw [← char_toNat_inj (lowcase a), lowcase_toNat, lowcase_toNat]
  simp only [charCaseVariant, Bool.or_eq_true, Bool.and_eq_true, decide_eq_true_eq,
    ← char_toNat_inj a b]
  split_ifs <;> omega

theorem lowcase_eq_nul (a b : Char) (h : lowcase a = lowcase b) : a = NUL ↔ b = NUL := by
  rw [← char_toNat_inj (lowcase a), lowcase_toNat, lowcase_toNat] at h
  rw [char_eq_nul, char_eq_nul]
  split_ifs at h <;> omega

/-- The comparison `strieq` makes is: the two C strings have the same length and
differ only in the case of ASCII letters. -/
theorem strieq_eq_caseVariant (a b : List Char) :
    strieq a b = caseVariant (cstr a) (cstr b) := by
  induction a generalizing b with
  | nil =>
    cases b with
    | nil => rfl
    | cons y ys =>
      by_cases hy : y = NUL
      · simp [strieq, cstr, caseVariant, hy]
      · simp [strieq, cstr, caseVariant, hy]
  | cons x xs ih =>
    cases b with
    | nil =>
      by_cases hx : x = NUL
      · simp [strieq, cstr, caseVariant, hx]
      · simp [strieq, cstr, caseVariant, hx]
    | cons y ys =>
      by_cases hx : x = NUL
      · by_cases hy : y = NUL
        · simp [strieq, cstr, caseVariant, hx, hy]
        · simp [strieq, cstr, caseVariant, hx, hy]
      · by_cases hy : y = NUL
        · simp [strieq, cstr, caseVariant, hx, hy]
        · by_cases hl : lowcase x = lowcase y
          · have hv := (charCaseVariant_iff x y).2 hl
            simp [strieq, cstr, caseVariant, hx, hy, hl, hv, ih]
          · have hv : charCaseVariant x y = false := by
              rw [← Bool.not_eq_true, charCaseVariant_iff]
              exact hl
            simp [strieq, cstr, caseVariant, hx, hy, hl, hv]

/-- A name that differs from `o` only in the case of ASCII letters compares
like `o` with every string. -/
theorem strieq_caseVariant_left (o o2 : List Char) (h : caseVariant o o2 = true)
    (x : List Char) : strieq o2 x = strieq o x := by
  induction o generalizing o2 x with
  | nil =>
    cases o2 with
    | nil => rfl
    | cons b bs => simp [caseVariant] at h
  | cons a as ih =>
    cases o2 with
    | nil => simp [caseVariant] at h
    | cons b bs =>
      simp only [caseVariant, Bool.and_eq_true] at h
      obtain ⟨h1, h2⟩ := h
      have hl := (charCaseVariant_iff a b).1 h1
      have hn := lowcase_eq_nul a b hl
      cases x with
      | nil => simp [strieq, hn]
      | cons y ys => simp [strieq, hn, hl, ih bs h2 ys]

/-! ## `parse_config`: theorems -/

theorem to_size_t_nonneg (x : Int) : 0 ≤ to_size_t x :=
  Int.emod_nonneg _ (by norm_num)

theorem to_size_t_natCast (n : Nat) (h : n < 2 ^ 64) : to_size_t (n : Int) = (n : Int) := by
  unfold to_size_t
  apply Int.emod_eq_of_lt
  · omega
  · exact_mod_cast h

/-- C5: for every record `c` and every natural number `n`,
`parse_config("frontend-spdy-window-bits", decimal n)` returns 0 and makes the
record `c` with `spdy_upstream_window_bits` replaced by `n` when `n < 31`, and
returns -1 with the record `c` itself (and the `-w` line printed) when
`31 ≤ n`. -/
theorem parse_config_window_bits (env : Env) (c : Config) (n : Nat) :
    parse_config env c SHRPX_OPT_FRONTEND_SPDY_WINDOW_BITS (decimal n) =
      if n < 31 then ⟨0, { c with spdy_upstream_window_bits := (n : Int) }, []⟩
      else ⟨-1, c, [Diag.windowBitsRange]⟩ := by
  have hd := strtoul_decimal n [] rfl
  rw [List.append_nil] at hd
  rw [parse_config_frontend_spdy_window_bits, hd]
  by_cases hn : n < 31
  · have h1 : ¬ ULONG_MAX < n := by simp only [ULONG_MAX]; omega
    have h2 : to_size_t (n : Int) = (n : Int) := to_size_t_natCast n (by omega)
    simp only [h1, if_false, hn, and_self, if_true, h2]
  · by_cases h1 : ULONG_MAX < n
    · simp [h1, hn]
    · simp [h1, hn]

/-- The values `30` and `31` on a record whose window bits are 5: `30` is stored,
`31` fails and 5 stays. -/
theorem parse_config_window_bits_witness :
    decimal 30 = "30".toList ∧ decimal 31 = "31".toList ∧
    parse_config Env.none { Config.zero with spdy_upstream_window_bits := 5 }
        SHRPX_OPT_FRONTEND_SPDY_WINDOW_BITS (decimal 30) =
      ⟨0, { Config.zero with spdy_upstream_window_bits := 30 }, []⟩ ∧
    parse_config Env.none { Config.zero with spdy_upstream_window_bits := 5 }
        SHRPX_OPT_FRONTEND_SPDY_WINDOW_BITS (decimal 31) =
      ⟨-1, { Config.zero with spdy_upstream_window_bits := 5 }, [Diag.windowBitsRange]⟩ :=
  ⟨by decide, by decide,
   parse_config_window_bits Env.none { Config.zero with spdy_upstream_window_bits := 5 } 30,
   parse_config_window_bits Env.none { Config.zero with spdy_upstream_window_bits := 5 } 31⟩

/-- C6, as stated, fails: `workers=abc` returns 0 and overwrites a worker count
of 4 with 0; `frontend-spdy-window-bits=12x` returns 0 and overwrites 5 with 12;
`frontend-read-timeout=` (empty value) returns 0 and overwrites 9 seconds with
0; `workers=-5` returns 0 and stores `2 ^ 64 - 5`. -/
theorem parse_config_numeric_accepts_malformed :
    ((parse_config Env.none { Config.zero with num_worker := 4 }
        SHRPX_OPT_WORKERS "abc".toList).ret = 0 ∧
      (parse_config Env.none { Config.zero with num_worker := 4 }
        SHRPX_OPT_WORKERS "abc".toList).config.num_worker = 0) ∧
    ((parse_config Env.none { Config.zero with spdy_upstream_window_bits := 5 }
        SHRPX_OPT_FRONTEND_SPDY_WINDOW_BITS "12x".toList).ret = 0 ∧
      (parse_config Env.none { Config.zero with spdy_upstream_window_bits := 5 }
        SHRPX_OPT_FRONTEND_SPDY_WINDOW_BITS "12x".toList).config.spdy_upstream_window_bits = 12) ∧
    ((parse_config Env.none { Config.zero with upstream_read_timeout := ⟨9, 0⟩ }
        SHRPX_OPT_FRONTEND_READ_TIMEOUT []).ret = 0 ∧
      (parse_config Env.none { Config.zero with upstream_read_timeout := ⟨9, 0⟩ }
        SHRPX_OPT_FRONTEND_READ_TIMEOUT []).config.upstream_read_timeout = ⟨0, 0⟩) ∧
    ((parse_config Env.none { Config.zero with num_worker := 4 }
        SHRPX_OPT_WORKERS "-5".toList).ret = 0 ∧
      (parse_config Env.none { Config.zero with num_worker := 4 }
        SHRPX_OPT_WORKERS "-5".toList).config.num_worker = 2 ^ 64 - 5) := by
  decide

/-- C6, amended: of the nine numeric options only `frontend-spdy-window-bits`
can fail, and only on what `strtoul` returns: it returns -1 and leaves the whole
record as it was when `strtoul` reports a range error or yields 31 or more, and
stores the value otherwise.  The other eight return 0 for every value and store
what `strtol` returns (converted to `size_t` for the worker count and the
stream limit).  A value without a leading numeral is read as 0 by both
functions, with no error. -/
theorem parse_config_numeric_validation (env : Env) (c : Config) (v : List Char) :
    (((strtoul v).erange = true ∨ 31 ≤ (strtoul v).val) →
      parse_config env c SHRPX_OPT_FRONTEND_SPDY_WINDOW_BITS v =
        ⟨-1, c, [Diag.windowBitsRange]⟩) ∧
    (((strtoul v).erange = false ∧ (strtoul v).val < 31) →
      parse_config env c SHRPX_OPT_FRONTEND_SPDY_WINDOW_BITS v =
        ⟨0, { c with spdy_upstream_window_bits := ((strtoul v).val : Int) }, []⟩) ∧
    parse_config env c SHRPX_OPT_WORKERS v =
      ⟨0, { c with num_worker := to_size_t (strtol v).val }, []⟩ ∧
    parse_config env c SHRPX_OPT_SPDY_MAX_CONCURRENT_STREAMS v =
      ⟨0, { c with spdy_max_concurrent_streams := to_size_t (strtol v).val }, []⟩ ∧
    parse_config env c SHRPX_OPT_FRONTEND_SPDY_READ_TIMEOUT v =
      ⟨0, { c with spdy_upstream_read_timeout := ⟨(strtol v).val, 0⟩ }, []⟩ ∧
    parse_config env c SHRPX_OPT_FRONTEND_READ_TIMEOUT v =
      ⟨0, { c with upstream_read_timeout := ⟨(strtol v).val, 0⟩ }, []⟩ ∧
    parse_config env c SHRPX_OPT_FRONTEND_WRITE_TIMEOUT v =
      ⟨0, { c with upstream_write_timeout := ⟨(strtol v).val, 0⟩ }, []⟩ ∧
    parse_config env c SHRPX_OPT_BACKEND_READ_TIMEOUT v =
      ⟨0, { c with downstream_read_timeout := ⟨(strtol v).val, 0⟩ }, []⟩ ∧
    parse_config env c SHRPX_OPT_BACKEND_WRITE_TIMEOUT v =
      ⟨0, { c with downstream_write_timeout := ⟨(strtol v).val, 0⟩ }, []⟩ ∧
    parse_config env c SHRPX_OPT_BACKEND_KEEP_ALIVE_TIMEOUT v =
      ⟨0, { c with downstream_idle_read_timeout := ⟨(strtol v).val, 0⟩ }, []⟩ ∧
    (startsWithDigit (takeSign (skipSpace v)).2 = false →
      strtol v = ⟨0, false⟩ ∧ strtoul v = ⟨0, false⟩) := by
  refine ⟨?_, ?_, rfl, rfl, rfl, rfl, rfl, rfl, rfl, rfl, ?_⟩
  · intro hbad
    rw [parse_config_frontend_spdy_window_bits, if_neg]
    rintro ⟨e1, e2⟩
    rcases hbad with hb | hb
    · rw [e1] at hb; exact absurd hb (by decide)
    · omega
  · intro hok
    rw [parse_config_frontend_spdy_window_bits, if_pos hok,
      to_size_t_natCast _ (by have := hok.2; omega)]
  · intro h0
    simp [strtol, strtoul, h0]

/-- The window-bits values `31`, `-1` and a 20-digit numeral fail and leave the
record; `30` is stored. -/
theorem parse_config_numeric_validation_witness :
    parse_config Env.none Config.zero SHRPX_OPT_FRONTEND_SPDY_WINDOW_BITS "31".toList =
      ⟨-1, Config.zero, [Diag.windowBitsRange]⟩ ∧
    parse_config Env.none Config.zero SHRPX_OPT_FRONTEND_SPDY_WINDOW_BITS "-1".toList =
      ⟨-1, Config.zero, [Diag.windowBitsRange]⟩ ∧
    parse_config Env.none Config.zero SHRPX_OPT_FRONTEND_SPDY_WINDOW_BITS
        "99999999999999999999".toList =
      ⟨-1, Config.zero, [Diag.windowBitsRange]⟩ ∧
    parse_config Env.none Config.zero SHRPX_OPT_FRONTEND_SPDY_WINDOW_BITS "30".toList =
      ⟨0, { Config.zero with spdy_upstream_window_bits := 30 }, []⟩ :=
  ⟨(parse_config_numeric_validation Env.none Config.zero "31".toList).1 (by decide),
   (parse_config_numeric_validation Env.none Config.zero "-1".toList).1 (by decide),
   (parse_config_numeric_validation Env.none Config.zero "99999999999999999999".toList).1
     (by decide),
   (parse_config_numeric_validation Env.none Config.zero "30".toList).2.1 (by decide)⟩

/-- A property of both branches of a conditional holds of the conditional. -/
theorem ite_ind {α : Type} (P : α → Prop) (b : Prop) [Decidable b] (x y : α)
    (hx : b → P x) (hy : ¬ b → P y) : P (if b then x else y) := by
  by_cases h : b
  · rw [if_pos h]; exact hx h
  · rw [if_neg h]; exact hy h

/-- Every `parse_config` call keeps the numeric fields in their declared
ranges. -/
theorem parse_config_inRange (env : Env) (c : Config) (opt v : List Char) (h : c.inRange) :
    (parse_config env c opt v).config.inRange := by
  obtain ⟨h1, h2, h3, h4⟩ := h
  unfold parse_config
  repeat' first
    | refine ite_ind (fun r : ParseResult => r.config.inRange) _ _ _ (fun _ => ?_) (fun _ => ?_)
    | exact ⟨h1, h2, h3, h4⟩
    | exact ⟨to_size_t_nonneg _, h2, h3, h4⟩
    | exact ⟨h1, to_size_t_nonneg _, h3, h4⟩
    | fail
  · have hw : (strtoul v).erange = false ∧ (strtoul v).val < 31 := by assumption
    refine ⟨h1, h2, to_size_t_nonneg _, ?_⟩
    show to_size_t ((strtoul v).val : Int) ≤ 30
    rw [to_size_t_natCast _ (by have := hw.2; omega)]
    have := hw.2
    omega
  · split
    · exact ⟨h1, h2, h3, h4⟩
    · exact ⟨h1, h2, h3, h4⟩

/-- The freshly constructed record has its numeric fields in range. -/
theorem ctor_inRange (raw : Config) : (Config.ctor raw).inRange := by
  simp [Config.inRange, Config.ctor]

/-- C7: on a record whose numeric fields are in range, a successful `workers`
call leaves a worker count of at least 0, a successful
`spdy-max-concurrent-streams` call a stream limit of at least 0, and a
successful `frontend-spdy-window-bits` call window bits from 0 to 30; and every
record reachable from a freshly constructed one by `parse_config` calls has
worker count and stream limit at least 0 and window bits from 0 to 30. -/
theorem parse_config_numeric_in_range :
    (∀ (env : Env) (c : Config) (v : List Char), c.inRange →
      (parse_config env c SHRPX_OPT_WORKERS v).ret = 0 →
        0 ≤ (parse_config env c SHRPX_OPT_WORKERS v).config.num_worker) ∧
    (∀ (env : Env) (c : Config) (v : List Char), c.inRange →
      (parse_config env c SHRPX_OPT_SPDY_MAX_CONCURRENT_STREAMS v).ret = 0 →
        0 ≤ (parse_config env c SHRPX_OPT_SPDY_MAX_CONCURRENT_STREAMS
          v).config.spdy_max_concurrent_streams) ∧
    (∀ (env : Env) (c : Config) (v : List Char), c.inRange →
      (parse_config env c SHRPX_OPT_FRONTEND_SPDY_WINDOW_BITS v).ret = 0 →
        0 ≤ (parse_config env c SHRPX_OPT_FRONTEND_SPDY_WINDOW_BITS
          v).config.spdy_upstream_window_bits ∧
        (parse_config env c SHRPX_OPT_FRONTEND_SPDY_WINDOW_BITS
          v).config.spdy_upstream_window_bits ≤ 30) ∧
    (∀ c : Config, Reachable c →
      0 ≤ c.num_worker ∧ 0 ≤ c.spdy_max_concurrent_streams ∧
        0 ≤ c.spdy_upstream_window_bits ∧ c.spdy_upstream_window_bits ≤ 30) := by
  refine ⟨?_, ?_, ?_, ?_⟩
  · intro env c v hc _
    exact (parse_config_inRange env c SHRPX_OPT_WORKERS v hc).1
  · intro env c v hc _
    exact (parse_config_inRange env c SHRPX_OPT_SPDY_MAX_CONCURRENT_STREAMS v hc).2.1
  · intro env c v hc _
    exact (parse_config_inRange env c SHRPX_OPT_FRONTEND_SPDY_WINDOW_BITS v hc).2.2
  · intro c hc
    induction hc with
    | fresh raw => exact ctor_inRange raw
    | step env c opt optarg _ ih => exact parse_config_inRange env c opt optarg ih

/-- The record after `workers=-5` and then `frontend-spdy-window-bits=30` on a
fresh record is in range. -/
theorem parse_config_numeric_in_range_witness :
    0 ≤ (parse_config Env.none
        (parse_config Env.none (Config.ctor Config.zero) SHRPX_OPT_WORKERS "-5".toList).config
        SHRPX_OPT_FRONTEND_SPDY_WINDOW_BITS "30".toList).config.num_worker ∧
    0 ≤ (parse_config Env.none
        (parse_config Env.none (Config.ctor Config.zero) SHRPX_OPT_WORKERS "-5".toList).config
        SHRPX_OPT_FRONTEND_SPDY_WINDOW_BITS "30".toList).config.spdy_max_concurrent_streams ∧
    0 ≤ (parse_config Env.none
        (parse_config Env.none (Config.ctor Config.zero) SHRPX_OPT_WORKERS "-5".toList).config
        SHRPX_OPT_FRONTEND_SPDY_WINDOW_BITS "30".toList).config.spdy_upstream_window_bits ∧
    (parse_config Env.none
        (parse_config Env.none (Config.ctor Config.zero) SHRPX_OPT_WORKERS "-5".toList).config
        SHRPX_OPT_FRONTEND_SPDY_WINDOW_BITS "30".toList).config.spdy_upstream_window_bits ≤ 30 :=
  parse_config_numeric_in_range.2.2.2 _
    (Reachable.step Env.none _ SHRPX_OPT_FRONTEND_SPDY_WINDOW_BITS "30".toList
      (Reachable.step Env.none _ SHRPX_OPT_WORKERS "-5".toList (Reachable.fresh Config.zero)))

/-- The recognised names hold no NUL: each is its own C string. -/
theorem cstr_recognized : ∀ name ∈ recognizedOptions, cstr name = name := by decide

/-- C8: for an option name whose C string is not equal, up to the case of ASCII
letters, to any of the 21 recognised names, `parse_config` returns -1 with the
record as it was, for every value and every record (and prints the "Unknown
option" line). -/
theorem parse_config_unknown_option (env : Env) (c : Config) (opt v : List Char)
    (h : ∀ name ∈ recognizedOptions, caseVariant (cstr opt) name = false) :
    parse_config env c opt v = ⟨-1, c, [Diag.unknownOption (cstr opt)]⟩ := by
  have hs : ∀ name ∈ recognizedOptions, strieq opt name = false := by
    intro name hn
    rw [strieq_eq_caseVariant, cstr_recognized name hn]
    exact h name hn
  have h0 := hs SHRPX_OPT_BACKEND (by simp [recognizedOptions])
  have h1 := hs SHRPX_OPT_FRONTEND (by simp [recognizedOptions])
  have h2 := hs SHRPX_OPT_WORKERS (by simp [recognizedOptions])
  have h3 := hs SHRPX_OPT_SPDY_MAX_CONCURRENT_STREAMS (by simp [recognizedOptions])
  have h4 := hs SHRPX_OPT_LOG_LEVEL (by simp [recognizedOptions])
  have h5 := hs SHRPX_OPT_DAEMON (by simp [recognizedOptions])
  have h6 := hs SHRPX_OPT_SPDY_PROXY (by simp [recognizedOptions])
  have h7 := hs SHRPX_OPT_ADD_X_FORWARDED_FOR (by simp [recognizedOptions])
  have h8 := hs SHRPX_OPT_FRONTEND_SPDY_READ_TIMEOUT (by simp [recognizedOptions])
  have h9 := hs SHRPX_OPT_FRONTEND_READ_TIMEOUT (by simp [recognizedOptions])
  have h10 := hs SHRPX_OPT_FRONTEND_WRITE_TIMEOUT (by simp [recognizedOptions])
  have h11 := hs SHRPX_OPT_BACKEND_READ_TIMEOUT (by simp [recognizedOptions])
  have h12 := hs SHRPX_OPT_BACKEND_WRITE_TIMEOUT (by simp [recognizedOptions])
  have h13 := hs SHRPX_OPT_ACCESSLOG (by simp [recognizedOptions])
  have h14 := hs SHRPX_OPT_BACKEND_KEEP_ALIVE_TIMEOUT (by simp [recognizedOptions])
  have h15 := hs SHRPX_OPT_FRONTEND_SPDY_WINDOW_BITS (by simp [recognizedOptions])
  have h16 := hs SHRPX_OPT_PID_FILE (by simp [recognizedOptions])
  have h17 := hs SHRPX_OPT_USER (by simp [recognizedOptions])
  have h18 := hs SHRPX_OPT_PRIVATE_KEY_FILE (by simp [recognizedOptions])
  have h19 := hs SHRPX_OPT_CERTIFICATE_FILE (by simp [recognizedOptions])
  have h20 := hs OPT_CONF (by simp [recognizedOptions])
  simp [parse_config, h0, h1, h2, h3, h4, h5, h6, h7, h8, h9, h10, h11, h12, h13, h14, h15, h16, h17, h18, h19, h20]

/-- The name `bogus` is none of the 21: failure, record untouched. -/
theorem parse_config_unknown_option_witness :
    parse_config Env.none Config.zero "bogus".toList "1".toList =
      ⟨-1, Config.zero, [Diag.unknownOption (cstr "bogus".toList)]⟩ :=
  parse_config_unknown_option Env.none Config.zero "bogus".toList "1".toList (by decide)

/-- C9: for a recognised option name `o` and a name `o2` that differs from it
only in the case of ASCII letters, `parse_config` with `o2` leaves what it
leaves with `o`: the same return value, the same record, the same diagnostics. -/
theorem parse_config_case_insensitive (env : Env) (c : Config) (o o2 v : List Char)
    (ho : o ∈ recognizedOptions) (hv : caseVariant o o2 = true) :
    parse_config env c o2 v = parse_config env c o v := by
  have hs := strieq_caseVariant_left o o2 hv
  unfold parse_config
  simp only [hs]
  simp only [recognizedOptions, List.mem_cons, List.mem_singleton, List.not_mem_nil,
    or_false] at ho
  rcases ho with rfl | rfl | rfl | rfl | rfl | rfl | rfl | rfl | rfl | rfl | rfl | rfl | rfl | rfl | rfl | rfl | rfl | rfl | rfl | rfl | rfl
  all_goals rfl

/-- The names `Daemon` and `BACKEND` act as `daemon` and `backend`. -/
theorem parse_config_case_insensitive_witness :
    parse_config Env.none Config.zero "Daemon".toList "yes".toList =
      parse_config Env.none Config.zero SHRPX_OPT_DAEMON "yes".toList ∧
    parse_config Env.none Config.zero "BACKEND".toList "example.com,443".toList =
      parse_config Env.none Config.zero SHRPX_OPT_BACKEND "example.com,443".toList :=
  ⟨parse_config_case_insensitive Env.none Config.zero SHRPX_OPT_DAEMON "Daemon".toList
      "yes".toList (by decide) (by decide),
   parse_config_case_insensitive Env.none Config.zero SHRPX_OPT_BACKEND "BACKEND".toList
      "example.com,443".toList (by decide) (by decide)⟩

/-- C10: each of `daemon`, `spdy-proxy`, `add-x-forwarded-for` and `accesslog`
returns 0 for every value and every record, prints nothing, and makes the record
with its own flag set to whether the value's C string is `yes` up to the case of
ASCII letters (true exactly then, false for every other value), every other
field as it was. -/
theorem parse_config_boolean (env : Env) (c : Config) (v : List Char) :
    parse_config env c SHRPX_OPT_DAEMON v =
      ⟨0, { c with daemon := caseVariant (cstr v) YES }, []⟩ ∧
    parse_config env c SHRPX_OPT_SPDY_PROXY v =
      ⟨0, { c with spdy_proxy := caseVariant (cstr v) YES }, []⟩ ∧
    parse_config env c SHRPX_OPT_ADD_X_FORWARDED_FOR v =
      ⟨0, { c with add_x_forwarded_for := caseVariant (cstr v) YES }, []⟩ ∧
    parse_config env c SHRPX_OPT_ACCESSLOG v =
      ⟨0, { c with accesslog := caseVariant (cstr v) YES }, []⟩ := by
  have hy : strieq v YES = caseVariant (cstr v) YES := by
    rw [strieq_eq_caseVariant]
    rfl
  rw [parse_config_daemon, parse_config_spdy_proxy, parse_config_add_x_forwarded_for,
    parse_config_accesslog, hy]
  exact ⟨rfl, rfl, rfl, rfl⟩

/-- The values `yes`, `YES` and `Yes` store true in `daemon`; `no`, `yse`, the
empty value, `1` and `true` store false over a flag that was true. -/
theorem parse_config_boolean_witness :
    (parse_config Env.none Config.zero SHRPX_OPT_DAEMON "yes".toList).config.daemon = true ∧
    (parse_config Env.none Config.zero SHRPX_OPT_DAEMON "YES".toList).config.daemon = true ∧
    (parse_config Env.none Config.zero SHRPX_OPT_DAEMON "Yes".toList).config.daemon = true ∧
    parse_config Env.none { Config.zero with daemon := true } SHRPX_OPT_DAEMON "no".toList =
      ⟨0, Config.zero, []⟩ ∧
    parse_config Env.none { Config.zero with daemon := true } SHRPX_OPT_DAEMON "yse".toList =
      ⟨0, Config.zero, []⟩ ∧
    parse_config Env.none { Config.zero with daemon := true } SHRPX_OPT_DAEMON [] =
      ⟨0, Config.zero, []⟩ ∧
    parse_config Env.none { Config.zero with daemon := true } SHRPX_OPT_DAEMON "1".toList =
      ⟨0, Config.zero, []⟩ ∧
    parse_config Env.none { Config.zero with daemon := true } SHRPX_OPT_DAEMON "true".toList =
      ⟨0, Config.zero, []⟩ :=
  ⟨by rw [(parse_config_boolean Env.none Config.zero "yes".toList).1]; decide,
   by rw [(parse_config_boolean Env.none Config.zero "YES".toList).1]; decide,
   by rw [(parse_config_boolean Env.none Config.zero "Yes".toList).1]; decide,
   by rw [(parse_config_boolean Env.none _ "no".toList).1]; decide,
   by rw [(parse_config_boolean Env.none _ "yse".toList).1]; decide,
   by rw [(parse_config_boolean Env.none _ []).1]; decide,
   by rw [(parse_config_boolean Env.none _ "1".toList).1]; decide,
   by rw [(parse_config_boolean Env.none _ "true".toList).1]; decide⟩

/-! ## `backend` and `frontend` -/

/-- What `split_host_port` returns and prints depends neither on the old
contents of the host buffer nor on the old port; after a successful call the
same holds of the port stored and of the C string in the buffer, and nothing
was printed. -/
theorem split_host_port_args_irrelevant (b1 b2 : List Char) (p1 p2 hostlen : Nat)
    (tok : List Char) :
    (split_host_port b1 hostlen p1 tok).ret = (split_host_port b2 hostlen p2 tok).ret ∧
      (split_host_port b1 hostlen p1 tok).err = (split_host_port b2 hostlen p2 tok).err ∧
      ((split_host_port b1 hostlen p1 tok).ret = 0 →
        (split_host_port b1 hostlen p1 tok).port = (split_host_port b2 hostlen p2 tok).port ∧
        cstr (split_host_port b1 hostlen p1 tok).host =
          cstr (split_host_port b2 hostlen p2 tok).host ∧
        (split_host_port b1 hostlen p1 tok).err = []) := by
  cases hs : strchr tok ',' with
  | none => simp [split_host_port, hs]
  | some len =>
    obtain ⟨h1, _, h3, h4⟩ := strchr_some tok ',' (by decide) len hs
    rw [h1, split_host_port_comma b1 hostlen p1 _ _ h3 h4,
      split_host_port_comma b2 hostlen p2 _ _ h3 h4]
    split_ifs
    · simp
    · simp [cstr_append_nul _ _ h4]
    · simp

theorem set_config_str_dest (dest : Option (List Char)) (val : List Char) :
    (set_config_str dest val).dest = some (cstr val) := by
  cases dest <;> rfl

/-- C11: with `r` the outcome of `split_host_port` on the value for a host
buffer of `NI_MAXHOST` bytes (whatever buffer and port held before):
when `r` succeeded, `parse_config("backend", v)` returns 0 and makes the record
`c` with `downstream_host` the host string of `r` and `downstream_port` its port,
every other field as it was; otherwise it returns -1 with the record `c`.
`parse_config("frontend", v)` does the same with `host` and `port`.  Host and
port change together or not at all. -/
theorem parse_config_backend_frontend (env : Env) (c : Config) (v buf : List Char) (p0 : Nat) :
    parse_config env c SHRPX_OPT_BACKEND v =
      (if (split_host_port buf NI_MAXHOST p0 v).ret = 0 then
        ⟨0, { c with
              downstream_host := some (cstr (split_host_port buf NI_MAXHOST p0 v).host)
              downstream_port := (split_host_port buf NI_MAXHOST p0 v).port }, []⟩
      else ⟨-1, c, (split_host_port buf NI_MAXHOST p0 v).err⟩) ∧
    parse_config env c SHRPX_OPT_FRONTEND v =
      (if (split_host_port buf NI_MAXHOST p0 v).ret = 0 then
        ⟨0, { c with
              host := some (cstr (split_host_port buf NI_MAXHOST p0 v).host)
              port := (split_host_port buf NI_MAXHOST p0 v).port }, []⟩
      else ⟨-1, c, (split_host_port buf NI_MAXHOST p0 v).err⟩) := by
  obtain ⟨h1, h2, h3⟩ := split_host_port_args_irrelevant buf hostBuffer p0 0 NI_MAXHOST v
  rw [parse_config_backend, parse_config_frontend, set_config_str_dest, set_config_str_dest]
  by_cases hs : (split_host_port buf NI_MAXHOST p0 v).ret = 0
  · obtain ⟨h4, h5, h6⟩ := h3 hs
    have hne : ¬ (split_host_port hostBuffer NI_MAXHOST 0 v).ret = -1 := by
      rw [← h1, hs]; decide
    have he : (split_host_port hostBuffer NI_MAXHOST 0 v).err = [] := by rw [← h2, h6]
    simp only [hne, hs, if_false, if_true, he, ← h4, ← h5, and_self]
  · have hm : (split_host_port hostBuffer NI_MAXHOST 0 v).ret = -1 := by
      rcases split_host_port_ret hostBuffer NI_MAXHOST 0 v with h0 | h0
      · rw [← h1] at h0; exact absurd h0 hs
      · exact h0
    simp only [hm, hs, if_false, if_true, ← h2, and_self]

/-- The value `example.com,443`: `backend` sets the downstream pair and leaves
the frontend pair, `frontend` the other way round; `example.com` alone fails
and leaves the record. -/
theorem parse_config_backend_frontend_witness :
    parse_config Env.none Config.zero SHRPX_OPT_BACKEND "example.com,443".toList =
      ⟨0, { Config.zero with downstream_host := some "example.com".toList
                             downstream_port := 443 }, []⟩ ∧
    parse_config Env.none Config.zero SHRPX_OPT_FRONTEND "example.com,443".toList =
      ⟨0, { Config.zero with host := some "example.com".toList, port := 443 }, []⟩ ∧
    (parse_config Env.none Config.zero SHRPX_OPT_BACKEND "example.com".toList).ret = -1 ∧
    (parse_config Env.none Config.zero SHRPX_OPT_BACKEND "example.com".toList).config =
      Config.zero := by
  refine ⟨?_, ?_, ?_, ?_⟩
  · rw [(parse_config_backend_frontend Env.none Config.zero "example.com,443".toList
      (List.replicate NI_MAXHOST 'x') 0).1]
    decide
  · rw [(parse_config_backend_frontend Env.none Config.zero "example.com,443".toList
      (List.replicate NI_MAXHOST 'x') 0).2]
    decide
  · rw [(parse_config_backend_frontend Env.none Config.zero "example.com".toList
      (List.replicate NI_MAXHOST 'x') 0).1]
    decide
  · rw [(parse_config_backend_frontend Env.none Config.zero "example.com".toList
      (List.replicate NI_MAXHOST 'x') 0).1]
    decide

/-! ## The timeout options -/

/-- The function `strtol` on the numeral of a negative number. -/
theorem strtol_neg_decimal (m : Nat) :
    strtol ('-' :: decimal m) =
      if LONG_MAX + 1 < m then ⟨-((LONG_MAX : Int) + 1), true⟩ else ⟨-(m : Int), false⟩ := by
  obtain ⟨h1, h2, h3⟩ := scan_decimal m [] rfl
  rw [List.append_nil] at h1 h2 h3
  have hs : skipSpace ('-' :: decimal m) = '-' :: decimal m := by
    simp [skipSpace, show isspace '-' = false from by decide]
  have ht : takeSign ('-' :: decimal m) = (true, decimal m) := by
    simp [takeSign]
  simp [strtol, hs, ht, h2, h3]

/-- The function `strtol` reads the numeral of an integer that fits a `long` as
that integer. -/
theorem strtol_decimalInt (n : Int) (hlo : -(2 : Int) ^ 63 ≤ n) (hhi : n ≤ 2 ^ 63 - 1) :
    strtol (decimalInt n) = ⟨n, false⟩ := by
  unfold decimalInt
  by_cases hn : n < 0
  · rw [if_pos hn, strtol_neg_decimal, if_neg]
    · have : -((n.natAbs : Nat) : Int) = n := by omega
      rw [this]
    · simp only [LONG_MAX]
      omega
  · rw [if_neg hn]
    have hd := strtol_decimal n.toNat [] rfl
    rw [List.append_nil] at hd
    rw [hd, if_neg]
    · have : ((n.toNat : Nat) : Int) = n := by omega
      rw [this]
    · simp only [LONG_MAX]
      omega

/-- C12, as stated, fails: the numeral of `2 ^ 63` does not fit a `long`, so
`frontend-read-timeout=9223372036854775808` returns 0 and stores
`2 ^ 63 - 1` seconds, not `2 ^ 63`. -/
theorem parse_config_timeout_clamped :
    decimalInt (2 ^ 63) = "9223372036854775808".toList ∧
    (parse_config Env.none Config.zero SHRPX_OPT_FRONTEND_READ_TIMEOUT
      (decimalInt (2 ^ 63))).ret = 0 ∧
    (parse_config Env.none Config.zero SHRPX_OPT_FRONTEND_READ_TIMEOUT
      (decimalInt (2 ^ 63))).config.upstream_read_timeout = ⟨2 ^ 63 - 1, 0⟩ ∧
    (parse_config Env.none Config.zero SHRPX_OPT_FRONTEND_READ_TIMEOUT
      (decimalInt (2 ^ 63))).config.upstream_read_timeout ≠ ⟨2 ^ 63, 0⟩ := by
  have hd : decimalInt (2 ^ 63) = "9223372036854775808".toList := by
    simp only [decimalInt, decimal]
    rfl
  rw [hd]
  decide

/-- C12, amended: for each of the six timeout options, every record `c` and
every integer `n` that fits a 64-bit `long`, `parse_config` on the base-10
numeral of `n` returns 0 and makes the record `c` with the option's own field
set to `n` seconds and 0 microseconds, every other field (the five other
timeouts included) as it was. -/
theorem parse_config_timeouts (env : Env) (c : Config) (n : Int)
    (hlo : -(2 : Int) ^ 63 ≤ n) (hhi : n ≤ 2 ^ 63 - 1) :
    parse_config env c SHRPX_OPT_FRONTEND_SPDY_READ_TIMEOUT (decimalInt n) =
      ⟨0, { c with spdy_upstream_read_timeout := ⟨n, 0⟩ }, []⟩ ∧
    parse_config env c SHRPX_OPT_FRONTEND_READ_TIMEOUT (decimalInt n) =
      ⟨0, { c with upstream_read_timeout := ⟨n, 0⟩ }, []⟩ ∧
    parse_config env c SHRPX_OPT_FRONTEND_WRITE_TIMEOUT (decimalInt n) =
      ⟨0, { c with upstream_write_timeout := ⟨n, 0⟩ }, []⟩ ∧
    parse_config env c SHRPX_OPT_BACKEND_READ_TIMEOUT (decimalInt n) =
      ⟨0, { c with downstream_read_timeout := ⟨n, 0⟩ }, []⟩ ∧
    parse_config env c SHRPX_OPT_BACKEND_WRITE_TIMEOUT (decimalInt n) =
      ⟨0, { c with downstream_write_timeout := ⟨n, 0⟩ }, []⟩ ∧
    parse_config env c SHRPX_OPT_BACKEND_KEEP_ALIVE_TIMEOUT (decimalInt n) =
      ⟨0, { c with downstream_idle_read_timeout := ⟨n, 0⟩ }, []⟩ := by
  rw [parse_config_frontend_spdy_read_timeout, parse_config_frontend_read_timeout, parse_config_frontend_write_timeout, parse_config_backend_read_timeout, parse_config_backend_write_timeout, parse_config_backend_keep_alive_timeout, strtol_decimalInt n hlo hhi]
  exact ⟨rfl, rfl, rfl, rfl, rfl, rfl⟩

/-- The numerals `30` and `-5` for the six timeout options. -/
theorem parse_config_timeouts_witness :
    decimalInt 30 = "30".toList ∧ decimalInt (-5) = "-5".toList ∧
    parse_config Env.none Config.zero SHRPX_OPT_BACKEND_READ_TIMEOUT (decimalInt 30) =
      ⟨0, { Config.zero with downstream_read_timeout := ⟨30, 0⟩ }, []⟩ ∧
    parse_config Env.none Config.zero SHRPX_OPT_BACKEND_KEEP_ALIVE_TIMEOUT (decimalInt (-5)) =
      ⟨0, { Config.zero with downstream_idle_read_timeout := ⟨-5, 0⟩ }, []⟩ :=
  ⟨by decide, by decide,
   (parse_config_timeouts Env.none Config.zero 30 (by decide) (by decide)).2.2.2.1,
   (parse_config_timeouts Env.none Config.zero (-5) (by decide) (by decide)).2.2.2.2.2⟩

/-! ## String options -/

/-- C13: for a string field holding `f` (unset or any value) and values `v1`,
`v2`: after `set_config_str(f, v1)` and then `set_config_str(f, v2)` the field
holds the C string of `v2` (which is `v2` itself when `v2` holds no NUL) and
the copy of `v1` made by the first call was handed to `free` by the second; one
call on an unset field leaves the C string of `v`, freeing nothing.  On the
record: two `pid-file`, `private-key-file` or `certificate-file` calls in a row
leave the record of the second call alone, every other field as before the
first. -/
theorem set_config_str_twice (f : Option (List Char)) (v1 v2 v : List Char) :
    (set_config_str (set_config_str f v1).dest v2).dest = some (cstr v2) ∧
    (NUL ∉ v2 → (set_config_str (set_config_str f v1).dest v2).dest = some v2) ∧
    (set_config_str (set_config_str f v1).dest v2).freed = some (cstr v1) ∧
    set_config_str none v = ⟨some (cstr v), none⟩ ∧
    (NUL ∉ v → (set_config_str none v).dest = some v) ∧
    (∀ (env : Env) (c : Config),
      (parse_config env (parse_config env c SHRPX_OPT_PID_FILE v1).config
          SHRPX_OPT_PID_FILE v2).config = { c with pid_file := some (cstr v2) } ∧
      (parse_config env (parse_config env c SHRPX_OPT_PRIVATE_KEY_FILE v1).config
          SHRPX_OPT_PRIVATE_KEY_FILE v2).config = { c with private_key_file := some (cstr v2) } ∧
      (parse_config env (parse_config env c SHRPX_OPT_CERTIFICATE_FILE v1).config
          SHRPX_OPT_CERTIFICATE_FILE v2).config = { c with cert_file := some (cstr v2) }) := by
  have hfreed : (set_config_str (set_config_str f v1).dest v2).freed = some (cstr v1) := by
    cases f <;> rfl
  refine ⟨set_config_str_dest _ _, ?_, hfreed, rfl, ?_, ?_⟩
  · intro hn
    rw [set_config_str_dest, cstr_eq_self v2 hn]
  · intro hn
    rw [set_config_str_dest, cstr_eq_self v hn]
  · intro env c
    simp only [parse_config_pid_file, parse_config_private_key_file,
      parse_config_certificate_file, set_config_str_dest, and_self]

/-- A field holding `old`, set to `first` and then to `second`: it holds
`second`, and `first` was freed. -/
theorem set_config_str_twice_witness :
    (set_config_str (set_config_str (some "old".toList) "first".toList).dest
      "second".toList).dest = some "second".toList ∧
    (set_config_str (set_config_str (some "old".toList) "first".toList).dest
      "second".toList).freed = some "first".toList :=
  ⟨(set_config_str_twice (some "old".toList) "first".toList "second".toList []).2.1 (by decide),
   by rw [(set_config_str_twice (some "old".toList) "first".toList "second".toList []).2.2.1]
      decide⟩

/-- C14: for every record `c` and every value `v`, `pid-file`,
`private-key-file` and `certificate-file` each return 0, print nothing and make
the record `c` with `pid_file`, `private_key_file`, `cert_file` respectively
set to the C string of `v`, every other field as it was; the C string of `v` is
`v` itself when `v` holds no NUL. -/
theorem parse_config_path_options (env : Env) (c : Config) (v : List Char) :
    parse_config env c SHRPX_OPT_PID_FILE v = ⟨0, { c with pid_file := some (cstr v) }, []⟩ ∧
    parse_config env c SHRPX_OPT_PRIVATE_KEY_FILE v =
      ⟨0, { c with private_key_file := some (cstr v) }, []⟩ ∧
    parse_config env c SHRPX_OPT_CERTIFICATE_FILE v =
      ⟨0, { c with cert_file := some (cstr v) }, []⟩ ∧
    (NUL ∉ v → cstr v = v) := by
  rw [parse_config_pid_file, parse_config_private_key_file, parse_config_certificate_file,
    set_config_str_dest, set_config_str_dest, set_config_str_dest]
  exact ⟨rfl, rfl, rfl, cstr_eq_self v⟩

/-- The value `/run/shrpx.pid` for `pid-file` on a record that has a key file. -/
theorem parse_config_path_options_witness :
    parse_config Env.none { Config.zero with private_key_file := some "k.pem".toList }
        SHRPX_OPT_PID_FILE "/run/shrpx.pid".toList =
      ⟨0, { Config.zero with private_key_file := some "k.pem".toList
                             pid_file := some "/run/shrpx.pid".toList }, []⟩ := by
  rw [(parse_config_path_options Env.none _ "/run/shrpx.pid".toList).1]
  decide

/-- C15: for every name that is `conf` up to the case of ASCII letters, every
value and every record `c`, `parse_config` returns 0 with the record `c`,
`conf_path` included, and prints the "conf is ignored" line. -/
theorem parse_config_conf_ignored (env : Env) (c : Config) (o v : List Char)
    (ho : caseVariant OPT_CONF o = true) :
    parse_config env c o v = ⟨0, c, [Diag.confIgnored]⟩ ∧
      (parse_config env c o v).config.conf_path = c.conf_path := by
  have hs := strieq_caseVariant_left OPT_CONF o ho
  have h : parse_config env c o v = ⟨0, c, [Diag.confIgnored]⟩ := by
    unfold parse_config
    simp only [hs]
    rfl
  rw [h]
  exact ⟨rfl, rfl⟩

/-- The names `conf` and `CONF` with a path as value: the record stays. -/
theorem parse_config_conf_ignored_witness :
    parse_config Env.none Config.zero "conf".toList "/etc/shrpx.conf".toList =
      ⟨0, Config.zero, [Diag.confIgnored]⟩ ∧
    parse_config Env.none Config.zero "CONF".toList "/etc/shrpx.conf".toList =
      ⟨0, Config.zero, [Diag.confIgnored]⟩ :=
  ⟨(parse_config_conf_ignored Env.none Config.zero "conf".toList "/etc/shrpx.conf".toList
      (by decide)).1,
   (parse_config_conf_ignored Env.none Config.zero "CONF".toList "/etc/shrpx.conf".toList
      (by decide)).1⟩

/-! ## Text after the port -/

/-- C19: for a host `h` without comma and NUL that fits the buffer, a port `n`
from 1 to 65535 and a suffix `t` that is empty or starts with a character that
is no decimal digit, `split_host_port` on `h ++ "," ++ decimal n ++ t` returns
0 with host `h` and port `n`: what it leaves is what it leaves on
`h ++ "," ++ decimal n`. -/
theorem split_host_port_trailing_text (host : List Char) (hostlen port : Nat)
    (h t : List Char) (n : Nat) (hcomma : ',' ∉ h) (hnul : NUL ∉ h)
    (hlen : h.length + 1 ≤ hostlen) (hn1 : 1 ≤ n) (hn2 : n ≤ 65535)
    (ht : startsWithDigit t = false) :
    split_host_port host hostlen port (h ++ ',' :: (decimal n ++ t)) =
        ⟨0, h ++ NUL :: host.drop (h.length + 1), n, []⟩ ∧
      cstr (split_host_port host hostlen port (h ++ ',' :: (decimal n ++ t))).host = h ∧
      split_host_port host hostlen port (h ++ ',' :: (decimal n ++ t)) =
        split_host_port host hostlen port (h ++ ',' :: decimal n) := by
  have key : ∀ u : List Char, startsWithDigit u = false →
      split_host_port host hostlen port (h ++ ',' :: (decimal n ++ u)) =
        ⟨0, h ++ NUL :: host.drop (h.length + 1), n, []⟩ := by
    intro u hu
    have hd : strtoul (decimal n ++ u) = ⟨n, false⟩ := by
      rw [strtoul_decimal n u hu, if_neg]
      simp only [ULONG_MAX]
      omega
    rw [split_host_port_comma host hostlen port h _ hcomma hnul, hd]
    have h1 : ¬ hostlen < h.length + 1 := by omega
    have h3 : n % 65536 = n := Nat.mod_eq_of_lt (by omega)
    simp only [h1, if_false, hn1, hn2, and_self, if_true, h3]
  have h0 := key [] rfl
  rw [List.append_nil] at h0
  rw [key t ht, h0]
  exact ⟨rfl, cstr_append_nul h _ hnul, rfl⟩

/-- The tokens `a,80,b` and `a,80xyz`: host `a`, port 80. -/
theorem split_host_port_trailing_text_witness :
    "a".toList ++ ',' :: (decimal 80 ++ ",b".toList) = "a,80,b".toList ∧
    "a".toList ++ ',' :: (decimal 80 ++ "xyz".toList) = "a,80xyz".toList ∧
    split_host_port (List.replicate 4 'x') 4 0
        ("a".toList ++ ',' :: (decimal 80 ++ ",b".toList)) =
      ⟨0, "a".toList ++ NUL :: (List.replicate 4 'x').drop ("a".toList.length + 1), 80, []⟩ ∧
    split_host_port (List.replicate 4 'x') 4 0
        ("a".toList ++ ',' :: (decimal 80 ++ "xyz".toList)) =
      ⟨0, "a".toList ++ NUL :: (List.replicate 4 'x').drop ("a".toList.length + 1), 80, []⟩ :=
  ⟨by decide, by decide,
   (split_host_port_trailing_text (List.replicate 4 'x') 4 0 "a".toList ",b".toList 80
      (by decide) (by decide) (by decide) (by decide) (by decide) (by decide)).1,
   (split_host_port_trailing_text (List.replicate 4 'x') 4 0 "a".toList "xyz".toList 80
      (by decide) (by decide) (by decide) (by decide) (by decide) (by decide)).1⟩

/-! ## Failure leaves the record -/

/-- The return value of `parse_config` is 0 or -1, and with -1 the record is
the one before the call. -/
theorem parse_config_ret_and_fail (env : Env) (c : Config) (opt v : List Char) :
    ((parse_config env c opt v).ret = 0 ∨ (parse_config env c opt v).ret = -1) ∧
      ((parse_config env c opt v).ret = -1 → (parse_config env c opt v).config = c) := by
  unfold parse_config
  repeat' first
    | refine ite_ind (fun r : ParseResult => (r.ret = 0 ∨ r.ret = -1) ∧ (r.ret = -1 → r.config = c))
        _ _ _ (fun _ => ?_) (fun _ => ?_)
    | exact ⟨Or.inr rfl, fun _ => rfl⟩
    | exact ⟨Or.inl rfl, fun h => by simp at h⟩
    | fail
  split
  · exact ⟨Or.inr rfl, fun _ => rfl⟩
  · exact ⟨Or.inl rfl, fun h => by simp at h⟩

/-- C20: for every option name, value and record `c`, `parse_config` returns 0
or -1, and when it returns -1 the record after the call is `c`: no field has
changed, in particular neither host nor port of the frontend or the backend
pair. -/
theorem parse_config_atomic (env : Env) (c : Config) (opt v : List Char) :
    ((parse_config env c opt v).ret = 0 ∨ (parse_config env c opt v).ret = -1) ∧
    ((parse_config env c opt v).ret = -1 →
      (parse_config env c opt v).config = c ∧
      (parse_config env c opt v).config.host = c.host ∧
      (parse_config env c opt v).config.port = c.port ∧
      (parse_config env c opt v).config.downstream_host = c.downstream_host ∧
      (parse_config env c opt v).config.downstream_port = c.downstream_port) := by
  obtain ⟨h1, h2⟩ := parse_config_ret_and_fail env c opt v
  refine ⟨h1, fun h => ?_⟩
  rw [h2 h]
  exact ⟨rfl, rfl, rfl, rfl, rfl⟩

/-- Failing calls on a record with both pairs set: a `backend` value without
comma, window bits 31, an unknown user, an unknown level, an unknown option. -/
theorem parse_config_atomic_witness :
    (parse_config Env.none
      { Config.zero with host := some "h".toList, port := 1,
                         downstream_host := some "d".toList, downstream_port := 2 }
      SHRPX_OPT_BACKEND "example.com".toList).config =
      { Config.zero with host := some "h".toList, port := 1,
                         downstream_host := some "d".toList, downstream_port := 2 } ∧
    (parse_config Env.none Config.zero SHRPX_OPT_FRONTEND_SPDY_WINDOW_BITS "31".toList).config =
      Config.zero ∧
    (parse_config Env.none Config.zero SHRPX_OPT_USER "nobody".toList).config = Config.zero ∧
    (parse_config Env.none Config.zero SHRPX_OPT_LOG_LEVEL "LOUD".toList).config = Config.zero ∧
    (parse_config Env.none Config.zero "bogus".toList "1".toList).config = Config.zero :=
  ⟨((parse_config_atomic Env.none _ SHRPX_OPT_BACKEND "example.com".toList).2 (by decide)).1,
   ((parse_config_atomic Env.none Config.zero SHRPX_OPT_FRONTEND_SPDY_WINDOW_BITS
      "31".toList).2 (by decide)).1,
   ((parse_config_atomic Env.none Config.zero SHRPX_OPT_USER "nobody".toList).2 (by decide)).1,
   ((parse_config_atomic Env.none Config.zero SHRPX_OPT_LOG_LEVEL "LOUD".toList).2
      (by decide)).1,
   ((parse_config_atomic Env.none Config.zero "bogus".toList "1".toList).2 (by decide)).1⟩

/-! ## `load_config`: lemmas -/

theorem isSkipped_iff (line : List Char) :
    isSkipped line = true ↔ (line = [] ∨ line.head? = some '#') := by
  cases line with
  | nil => simp [isSkipped]
  | cons a as => simp [isSkipped]

theorem scanEq_le (line : List Char) : scanEq line ≤ line.length := by
  induction line with
  | nil => simp [scanEq]
  | cons a as ih =>
    by_cases ha : a = '='
    · simp [scanEq, ha]
    · simp [scanEq, ha, ih]

/-- The scan stops at the end of the line exactly when the line has no `=`. -/
theorem scanEq_eq_length (line : List Char) : scanEq line = line.length ↔ '=' ∉ line := by
  induction line with
  | nil => simp [scanEq]
  | cons a as ih =>
    by_cases ha : a = '='
    · simp [scanEq, ha]
    · have hne : ¬ '=' = a := fun e => ha e.symm
      simp [scanEq, ha, hne, ih]

/-- The scan stops after the text before the first `=`. -/
theorem take_scanEq (line : List Char) : line.take (scanEq line) = nameOf line := by
  induction line with
  | nil => rfl
  | cons a as ih =>
    by_cases ha : a = '='
    · simp [scanEq, nameOf, ha]
    · simp only [nameOf] at ih
      simp [scanEq, nameOf, ha, ih]

/-- Past the `=` the scan stopped at comes all the text after the first `=`. -/
theorem drop_scanEq (line : List Char) : line.drop (scanEq line + 1) = valueOf line := by
  induction line with
  | nil => rfl
  | cons a as ih =>
    by_cases ha : a = '='
    · simp [scanEq, valueOf, ha]
    · simp only [valueOf] at ih
      simp [scanEq, valueOf, ha, ih]

theorem cstr_append_nul_left (a r : List Char) : cstr (a ++ NUL :: r) = cstr a := by
  induction a with
  | nil => simp [cstr]
  | cons x xs ih =>
    by_cases hx : x = NUL
    · simp [cstr, hx]
    · simp [cstr, hx, ih]

/-- The function `parse_config` reads its option name as a C string. -/
theorem parse_config_opt_cstr (env : Env) (c : Config) (s s2 v : List Char)
    (h : cstr s = cstr s2) : parse_config env c s v = parse_config env c s2 v := by
  have hs : ∀ x, strieq s x = strieq s2 x := by
    intro x
    rw [strieq_eq_caseVariant, strieq_eq_caseVariant, h]
  unfold parse_config
  simp only [hs, h]

/-- The call `load_config` makes for a line with an `=` is
`parse_config(name, value)`. -/
theorem parse_config_line (env : Env) (c : Config) (line : List Char) (h : '=' ∈ line) :
    parse_config env c (store line (scanEq line) NUL)
        ((store line (scanEq line) NUL).drop (scanEq line + 1)) =
      parse_config env c (nameOf line) (valueOf line) := by
  have hlt : scanEq line < line.length := by
    have h1 := scanEq_le line
    have h2 : scanEq line ≠ line.length := fun e => (scanEq_eq_length line).1 e h
    omega
  have hlen : (line.take (scanEq line)).length = scanEq line := by
    rw [List.length_take]
    omega
  have hdrop : (store line (scanEq line) NUL).drop (scanEq line + 1) = valueOf line := by
    unfold store
    rw [← drop_scanEq]
    conv => lhs; rw [← hlen]
    rw [List.drop_append_eq_append_drop]
    simp [hlen]
  rw [hdrop]
  apply parse_config_opt_cstr
  unfold store
  rw [cstr_append_nul_left, take_scanEq]

/-- One round of the loop of `load_config`, by the kind of line. -/
theorem load_lines_cons (env : Env) (c : Config) (n : Int) (line : List Char)
    (rest : List (List Char)) :
    load_lines env c n (line :: rest) =
      if isSkipped line = true then load_lines env c (int_incr n) rest
      else if '=' ∈ line then
        if (parse_config env c (nameOf line) (valueOf line)).ret = -1 then
          ⟨-1, (parse_config env c (nameOf line) (valueOf line)).config,
            (parse_config env c (nameOf line) (valueOf line)).err, [int_incr n]⟩
        else
          ⟨(load_lines env (parse_config env c (nameOf line) (valueOf line)).config
              (int_incr n) rest).ret,
           (load_lines env (parse_config env c (nameOf line) (valueOf line)).config
              (int_incr n) rest).config,
           (parse_config env c (nameOf line) (valueOf line)).err ++
             (load_lines env (parse_config env c (nameOf line) (valueOf line)).config
              (int_incr n) rest).err,
           (int_incr n) :: (load_lines env (parse_config env c (nameOf line) (valueOf line)).config
              (int_incr n) rest).called⟩
      else ⟨-1, c, [Diag.badFormat (int_incr n)], []⟩ := by
  rw [load_lines]
  by_cases hsk : isSkipped line = true
  · rw [if_pos ((isSkipped_iff line).1 hsk), if_pos hsk]
  · rw [if_neg (fun e => hsk ((isSkipped_iff line).2 e)), if_neg hsk]
    by_cases heq : '=' ∈ line
    · have hi : ¬ scanEq line = line.length := fun e => (scanEq_eq_length line).1 e heq
      simp only [hi, if_false, heq, if_true, parse_config_line env c line heq]
    · have hi : scanEq line = line.length := (scanEq_eq_length line).2 heq
      simp only [hi, if_true, heq, if_false]

theorem split_host_port_err_no_badFormat (host : List Char) (hostlen port : Nat)
    (tok : List Char) (j : Int) :
    Diag.badFormat j ∉ (split_host_port host hostlen port tok).err := by
  unfold split_host_port
  cases strchr tok ',' with
  | none => simp
  | some len =>
    simp only
    split_ifs <;> simp

/-- The "Bad configuration format" line is not one `parse_config` prints. -/
theorem parse_config_err_no_badFormat (env : Env) (c : Config) (opt v : List Char) (j : Int) :
    Diag.badFormat j ∉ (parse_config env c opt v).err := by
  have hsp := split_host_port_err_no_badFormat hostBuffer NI_MAXHOST 0 v j
  unfold parse_config
  repeat' first
    | refine ite_ind (fun r : ParseResult => Diag.badFormat j ∉ r.err) _ _ _
        (fun _ => ?_) (fun _ => ?_)
    | exact hsp
    | exact List.not_mem_nil _
    | exact fun h => by simp at h
    | fail
  split
  · exact fun h => by simp at h
  · exact List.not_mem_nil _

theorem int_incr_eq (n : Int) (h1 : -(2 : Int) ^ 31 ≤ n) (h2 : n < 2 ^ 31 - 1) :
    int_incr n = n + 1 := by
  unfold int_incr
  have e : n + 1 + 2 ^ 31 = (n + 1 + 2 ^ 31) % 2 ^ 32 :=
    (Int.emod_eq_of_lt (by omega) (by omega)).symm
  omega

/-- While the counter stays within `INT_MAX` it counts the lines. -/
theorem counterAfter_eq (m : Nat) : ∀ n : Int, 0 ≤ n → n + m ≤ 2 ^ 31 - 1 →
    counterAfter n m = n + m := by
  induction m with
  | zero => intro n _ _; simp [counterAfter]
  | succ m ih =>
    intro n h0 h1
    have h2 : n + ((m : Nat) : Int) + 1 ≤ 2 ^ 31 - 1 := by
      have : ((m + 1 : Nat) : Int) = (m : Int) + 1 := by simp
      omega
    have hi : int_incr n = n + 1 := int_incr_eq n (by omega) (by omega)
    rw [counterAfter, hi, ih (n + 1) (by omega) (by omega)]
    simp only [Nat.cast_add, Nat.cast_one]
    omega

/-- The line numbers at which `parse_config` is called lie after the counter on
entry and within the lines given, as long as the counter stays within
`INT_MAX`. -/
theorem load_lines_called_bound (env : Env) (lines : List (List Char)) :
    ∀ (c : Config) (n : Int), 0 ≤ n → n + lines.length ≤ 2 ^ 31 - 1 →
      ∀ x ∈ (load_lines env c n lines).called, n < x ∧ x ≤ n + lines.length := by
  induction lines with
  | nil => intro c n _ _ x hx; simp [load_lines] at hx
  | cons l ls ih =>
    intro c n h0 hb x hx
    have hlen : ((l :: ls).length : Int) = (ls.length : Int) + 1 := by simp
    rw [hlen] at hb ⊢
    have hi : int_incr n = n + 1 := int_incr_eq n (by omega) (by omega)
    rw [load_lines_cons, hi] at hx
    split_ifs at hx with h1 h2 h3
    · have := ih c (n + 1) (by omega) (by omega) x hx
      omega
    · simp only [List.mem_singleton] at hx
      omega
    · simp only [List.mem_cons] at hx
      rcases hx with hx | hx
      · omega
      · have := ih _ (n + 1) (by omega) (by omega) x hx
        omega
    · simp at hx

/-- Lines that all apply: the loop runs through them and goes on with what
follows, from the record they leave. -/
theorem load_lines_append (env : Env) (pre : List (List Char)) :
    ∀ (c ck : Config) (n : Int) (rest : List (List Char)), applyLines env c pre = some ck →
      load_lines env c n (pre ++ rest) =
        ⟨(load_lines env ck (counterAfter n pre.length) rest).ret,
         (load_lines env ck (counterAfter n pre.length) rest).config,
         (load_lines env c n pre).err ++ (load_lines env ck (counterAfter n pre.length) rest).err,
         (load_lines env c n pre).called ++
           (load_lines env ck (counterAfter n pre.length) rest).called⟩ := by
  induction pre with
  | nil =>
    intro c ck n rest h
    simp only [applyLines, Option.some.injEq] at h
    subst h
    simp [load_lines, counterAfter]
  | cons l ls ih =>
    intro c ck n rest h
    have hlen : counterAfter n (l :: ls).length = counterAfter (int_incr n) ls.length := rfl
    rw [hlen, List.cons_append, load_lines_cons, load_lines_cons env c n l ls]
    simp only [applyLines, applyLine] at h
    by_cases hsk : isSkipped l = true
    · simp only [hsk, if_true] at h ⊢
      exact ih c ck (int_incr n) rest h
    · simp only [hsk, if_false, Bool.false_eq_true] at h ⊢
      by_cases heq : '=' ∈ l
      · simp only [heq, if_true] at h ⊢
        by_cases hr : (parse_config env c (nameOf l) (valueOf l)).ret = -1
        · simp [hr] at h
        · simp only [hr, if_false] at h ⊢
          rw [ih _ ck (int_incr n) rest h]
          simp
      · simp [heq] at h

/-- Lines that all apply print no "Bad configuration format" line. -/
theorem load_lines_ok_no_badFormat (env : Env) (pre : List (List Char)) :
    ∀ (c ck : Config) (n : Int), applyLines env c pre = some ck →
      ∀ j, Diag.badFormat j ∉ (load_lines env c n pre).err := by
  induction pre with
  | nil => intro c ck n _ j; simp [load_lines]
  | cons l ls ih =>
    intro c ck n h j
    rw [load_lines_cons]
    simp only [applyLines, applyLine] at h
    by_cases hsk : isSkipped l = true
    · simp only [hsk, if_true] at h ⊢
      exact ih c ck (int_incr n) h j
    · simp only [hsk, if_false, Bool.false_eq_true] at h ⊢
      by_cases heq : '=' ∈ l
      · simp only [heq, if_true] at h ⊢
        by_cases hr : (parse_config env c (nameOf l) (valueOf l)).ret = -1
        · simp [hr] at h
        · simp only [hr, if_false] at h ⊢
          rw [List.mem_append, not_or]
          exact ⟨parse_config_err_no_badFormat env c _ _ j, ih _ ck (int_incr n) h j⟩
      · simp [heq] at h

/-- The loop of `load_config` returns 0 with the record all lines leave when
they all apply, and -1 otherwise. -/
theorem load_lines_spec (env : Env) (lines : List (List Char)) :
    ∀ (c : Config) (n : Int),
      (∀ ck, applyLines env c lines = some ck →
        (load_lines env c n lines).ret = 0 ∧ (load_lines env c n lines).config = ck) ∧
      (applyLines env c lines = none → (load_lines env c n lines).ret = -1) := by
  induction lines with
  | nil =>
    intro c n
    simp [applyLines, load_lines]
  | cons l ls ih =>
    intro c n
    rw [load_lines_cons]
    simp only [applyLines, applyLine]
    by_cases hsk : isSkipped l = true
    · simp only [hsk, if_true]
      exact ih c (int_incr n)
    · simp only [hsk, if_false, Bool.false_eq_true]
      by_cases heq : '=' ∈ l
      · simp only [heq, if_true]
        by_cases hr : (parse_config env c (nameOf l) (valueOf l)).ret = -1
        · simp [hr]
        · simp only [hr, if_false]
          exact ih _ (int_incr n)
      · simp [heq]

/-- Lines that are all skipped: the loop returns 0, prints nothing, calls
`parse_config` for none and leaves the record. -/
theorem load_lines_skipped (env : Env) (lines : List (List Char)) :
    ∀ (c : Config) (n : Int), (∀ l ∈ lines, l = [] ∨ l.head? = some '#') →
      load_lines env c n lines = ⟨0, c, [], []⟩ := by
  induction lines with
  | nil => intro c n _; rfl
  | cons l ls ih =>
    intro c n h
    rw [load_lines, if_pos (h l (List.mem_cons_self _ _))]
    exact ih c (int_incr n) (fun x hx => h x (List.mem_cons_of_mem _ hx))

theorem getlines_replicate_newline (m : Nat) (t : List Char) :
    getlines (List.replicate m '\n' ++ t) = List.replicate m [] ++ getlines t := by
  induction m with
  | zero => rfl
  | succ m ih =>
    rw [List.replicate_succ, List.replicate_succ, List.cons_append, List.cons_append,
      getlines, if_pos rfl, ih]

theorem applyLines_replicate_nil (env : Env) (c : Config) (m : Nat) :
    applyLines env c (List.replicate m []) = some c := by
  induction m with
  | zero => rfl
  | succ m ih =>
    rw [List.replicate_succ, applyLines]
    have : applyLine env c [] = some c := rfl
    rw [this]
    exact ih

/-! ## `load_config`: theorems -/

/-- C16: for a file that opens, with `applyLine` the effect of one line in the
words of the specification (skip an empty line or a `#` line; fail on a line
without `=`; otherwise call `parse_config` with the text before the first `=`
and all the text after it, failing when it returns -1): when every line
applies, `load_config` returns 0 and the record is the one the lines make in
file order; when the lines before some line all apply and that line fails,
`load_config` returns -1 and the record is the one the lines before it make;
and whenever not every line applies it returns -1. -/
theorem load_config_fold (env : Env) (fs : FileSystem) (c : Config)
    (filename content : List Char) (hopen : fs (cstr filename) = some content) :
    (∀ ck, applyLines env c (getlines content) = some ck →
      (load_config env fs c filename).ret = 0 ∧ (load_config env fs c filename).config = ck) ∧
    (∀ (pre : List (List Char)) (l : List Char) (post : List (List Char)) (ck : Config),
      getlines content = pre ++ l :: post → applyLines env c pre = some ck →
      applyLine env ck l = none →
      (load_config env fs c filename).ret = -1 ∧ (load_config env fs c filename).config = ck) ∧
    (applyLines env c (getlines content) = none → (load_config env fs c filename).ret = -1) := by
  have hload : load_config env fs c filename = load_lines env c 0 (getlines content) := by
    simp [load_config, hopen]
  rw [hload]
  refine ⟨(load_lines_spec env _ c 0).1, ?_, (load_lines_spec env _ c 0).2⟩
  intro pre l post ck hl hpre hfail
  rw [hl, load_lines_append env pre c ck 0 (l :: post) hpre, load_lines_cons]
  simp only [applyLine] at hfail
  by_cases hsk : isSkipped l = true
  · simp [hsk] at hfail
  · simp only [hsk, if_false, Bool.false_eq_true] at hfail
    rw [if_neg hsk]
    by_cases heq : '=' ∈ l
    · simp only [heq, if_true] at hfail
      rw [if_pos heq]
      by_cases hr : (parse_config env ck (nameOf l) (valueOf l)).ret = -1
      · rw [if_pos hr]
        exact ⟨rfl, (parse_config_ret_and_fail env ck _ _).2 hr⟩
      · simp [hr] at hfail
    · rw [if_neg heq]
      exact ⟨rfl, rfl⟩

/-- The file `ok.conf` loads and leaves the record of its three assignments
(the value of `pid-file` keeps its `=`); `bad.conf` fails at its fifth line and
leaves the record of the first four lines, `workers=4` on line six not
applied. -/
theorem load_config_fold_witness :
    nameOf "pid-file=/a=b".toList = "pid-file".toList ∧
    valueOf "pid-file=/a=b".toList = "/a=b".toList ∧
    ((load_config Env.none sampleFiles Config.zero "ok.conf".toList).ret = 0 ∧
      (load_config Env.none sampleFiles Config.zero "ok.conf".toList).config =
        { Config.zero with daemon := true, pid_file := some "/a=b".toList, num_worker := 4 }) ∧
    ((load_config Env.none sampleFiles Config.zero "bad.conf".toList).ret = -1 ∧
      (load_config Env.none sampleFiles Config.zero "bad.conf".toList).config =
        { Config.zero with daemon := true, pid_file := some "/a=b".toList }) :=
  ⟨by decide, by decide,
   (load_config_fold Env.none sampleFiles Config.zero "ok.conf".toList
      "# shrpx\ndaemon=yes\n\npid-file=/a=b\nworkers=4\n".toList (by decide)).1 _ (by decide),
   (load_config_fold Env.none sampleFiles Config.zero "bad.conf".toList
      "# shrpx\ndaemon=yes\n\npid-file=/a=b\nbogus=1\nworkers=4\n".toList (by decide)).2.1
      ["# shrpx".toList, "daemon=yes".toList, [], "pid-file=/a=b".toList] "bogus=1".toList
      ["workers=4".toList] _ (by decide) (by decide) (by decide)⟩

/-- C17, as stated, fails for a file whose offending line lies past `INT_MAX`:
in a file of 2147483647 empty lines followed by the line `x`, line 2147483648
is the first line that is not skipped and it has no `=`; the load fails, but
the `int` counter cannot hold 2147483648 and the number printed is
-2147483648. -/
theorem load_config_line_counter_wraps :
    getlines manyLines = List.replicate 2147483647 [] ++ [['x']] ∧
    ((List.replicate 2147483647 ([] : List Char)).length : Int) + 1 = 2147483648 ∧
    load_config Env.none (fun _ => some manyLines) Config.zero [] =
      ⟨-1, Config.zero, [Diag.badFormat (-2147483648)], []⟩ := by
  have hg : getlines manyLines = List.replicate 2147483647 [] ++ [['x']] := by
    unfold manyLines
    rw [getlines_replicate_newline]
    have hx : getlines ['x'] = [['x']] := by decide
    rw [hx]
  have hlen : (List.replicate 2147483647 ([] : List Char)).length = 2147483647 :=
    List.length_replicate _ _
  have hskip : load_lines Env.none Config.zero 0 (List.replicate 2147483647 []) =
      ⟨0, Config.zero, [], []⟩ := by
    apply load_lines_skipped
    intro l hl
    exact Or.inl (List.eq_of_mem_replicate hl)
  have hcount : counterAfter 0 2147483647 = 2147483647 := by
    rw [counterAfter_eq 2147483647 0 (by decide) (by decide)]
    decide
  have hlast : load_lines Env.none Config.zero 2147483647 [['x']] =
      ⟨-1, Config.zero, [Diag.badFormat (-2147483648)], []⟩ := by decide
  refine ⟨hg, ?_, ?_⟩
  · rw [hlen]
    decide
  · show load_lines Env.none Config.zero 0 (getlines manyLines) = _
    rw [hg, load_lines_append Env.none _ Config.zero Config.zero 0 [['x']]
      (applyLines_replicate_nil Env.none Config.zero 2147483647), hlen, hcount, hskip, hlast]
    rfl

/-- C17, amended: for a file that opens in which the lines before line `k` all
apply (each is skipped or is an assignment that `parse_config` accepts), line
`k` is not empty, does not start with `#` and has no `=`, and `k` is at most
`INT_MAX` = 2147483647 (what the `int` line counter holds): `load_config` returns -1; its
diagnostics are those of the lines before `k` followed by "Bad configuration
format at line `k`", and `k` is the only line number reported; the record is
the one the lines before `k` make; `parse_config` is called only at line
numbers below `k`; and all of it is what the file cut off after line `k` gives,
whatever follows line `k`. -/
theorem load_config_missing_equals (env : Env) (fs : FileSystem) (c ck : Config)
    (filename content : List Char) (pre : List (List Char)) (l : List Char)
    (post : List (List Char)) (hopen : fs (cstr filename) = some content)
    (hl : getlines content = pre ++ l :: post) (hpre : applyLines env c pre = some ck)
    (hne : l ≠ []) (hhash : l.head? ≠ some '#') (heq : '=' ∉ l)
    (hkmax : (pre.length : Int) + 1 ≤ INT_MAX) :
    load_config env fs c filename =
        ⟨-1, ck, (load_lines env c 0 pre).err ++ [Diag.badFormat (pre.length + 1)],
          (load_lines env c 0 pre).called⟩ ∧
      (∀ j, Diag.badFormat j ∈ (load_config env fs c filename).err → j = pre.length + 1) ∧
      (∀ x ∈ (load_config env fs c filename).called, x < pre.length + 1) ∧
      load_config env fs c filename = load_lines env c 0 (pre ++ [l]) := by
  have hsk : ¬ isSkipped l = true := by
    rw [isSkipped_iff]
    rintro (h | h)
    · exact hne h
    · exact hhash h
  have hk : (pre.length : Int) + 1 ≤ 2147483647 := by
    have e : INT_MAX = 2147483647 := by decide
    rw [e] at hkmax
    exact hkmax
  have hcount : counterAfter 0 pre.length = (pre.length : Int) := by
    rw [counterAfter_eq pre.length 0 (by decide) (by omega)]
    omega
  have hincr : int_incr (pre.length : Int) = (pre.length : Int) + 1 :=
    int_incr_eq _ (by omega) (by omega)
  have hline : ∀ rest : List (List Char), load_lines env c 0 (pre ++ l :: rest) =
      ⟨-1, ck, (load_lines env c 0 pre).err ++ [Diag.badFormat (pre.length + 1)],
        (load_lines env c 0 pre).called⟩ := by
    intro rest
    rw [load_lines_append env pre c ck 0 (l :: rest) hpre, load_lines_cons, hcount, hincr]
    simp [hsk, heq]
  have hload : load_config env fs c filename = load_lines env c 0 (pre ++ l :: post) := by
    simp [load_config, hopen, hl]
  rw [hload, hline post, hline []]
  refine ⟨rfl, ?_, ?_, rfl⟩
  · intro j hj
    simp only [List.mem_append, List.mem_singleton, Diag.badFormat.injEq] at hj
    rcases hj with hj | hj
    · exact absurd hj (load_lines_ok_no_badFormat env pre c ck 0 hpre j)
    · exact hj
  · intro x hx
    have := load_lines_called_bound env pre c 0 (by decide) (by omega) x hx
    omega

/-- The file `noeq.conf`: its third line `workers 4` has no `=`; the load
fails reporting line 3, `daemon=yes` of line 1 is applied, `parse_config` was
called at line 1 only, and `spdy-proxy=yes` of line 4 has no effect. -/
theorem load_config_missing_equals_witness :
    load_config Env.none sampleFiles Config.zero "noeq.conf".toList =
      ⟨-1, { Config.zero with daemon := true }, [Diag.badFormat 3], [1]⟩ := by
  rw [(load_config_missing_equals Env.none sampleFiles Config.zero
    { Config.zero with daemon := true } "noeq.conf".toList
    "daemon=yes\n# next\nworkers 4\nspdy-proxy=yes\n".toList
    ["daemon=yes".toList, "# next".toList] "workers 4".toList ["spdy-proxy=yes".toList]
    (by decide) (by decide) (by decide) (by decide) (by decide) (by decide) (by decide)).1]
  decide

/-- C18: for a file that opens in which every line is empty or has `#` as its
first character (the empty file included), `load_config` returns 0, prints
nothing, calls `parse_config` for no line and leaves the record as it was; on a
freshly constructed record every field keeps the value the constructor gave
it. -/
theorem load_config_comments_only (env : Env) (fs : FileSystem) (c raw : Config)
    (filename content : List Char) (hopen : fs (cstr filename) = some content)
    (hall : ∀ l ∈ getlines content, l = [] ∨ l.head? = some '#') :
    load_config env fs c filename = ⟨0, c, [], []⟩ ∧
      load_config env fs (Config.ctor raw) filename = ⟨0, Config.ctor raw, [], []⟩ := by
  simp only [load_config, hopen]
  exact ⟨load_lines_skipped env _ c 0 hall, load_lines_skipped env _ (Config.ctor raw) 0 hall⟩

/-- The file `comments.conf` (one line is `#two=2`) and the empty file leave a
fresh record as the constructor made it. -/
theorem load_config_comments_only_witness :
    load_config Env.none sampleFiles (Config.ctor Config.zero) "comments.conf".toList =
      ⟨0, Config.ctor Config.zero, [], []⟩ ∧
    load_config Env.none (fun _ => some []) (Config.ctor Config.zero) "empty.conf".toList =
      ⟨0, Config.ctor Config.zero, [], []⟩ :=
  ⟨(load_config_comments_only Env.none sampleFiles (Config.ctor Config.zero) Config.zero
      "comments.conf".toList "# one\n\n#two=2\n#\n".toList (by decide) (by decide)).1,
   (load_config_comments_only Env.none (fun _ => some []) (Config.ctor Config.zero) Config.zero
      "empty.conf".toList [] rfl (by decide)).1⟩

end shrpx
